import Mathlib

/-!
Verification of the insight quality-gate and brain-lifecycle subsystem
(`atlas_gtm_mcp.qdrant`): a shallow embedding of `quality_gates.py`,
`models.py` and the brain-lifecycle tools of `__init__.py`, together with
theorems settling the specification claims about them.

Modelling conventions:
- Python floats are modelled as rationals (`ℚ`).  Every confidence value
  produced by the scorer is a multiple of 1/20 in [0.5, 0.9], so decimal
  rational arithmetic agrees with IEEE double arithmetic on all comparisons
  made by the code (`round(x, 2)` returns the double nearest a two-decimal
  value, and the thresholds 0.70 / 0.80 / 0.85 are compared exactly).
- External collaborators (the vector store and the embedding provider) are
  modelled as explicit state / oracles passed to each operation.
-/

/-! ## Enumerations (models.py) -/

/-- Model of `models.BrainStatus`. -/
inductive BrainStatus where
  | active
  | draft
  | archived
deriving Repr, DecidableEq

/-- Model of `models.InsightCategory`. -/
inductive InsightCategory where
  | buying_process
  | pain_point
  | objection
  | competitive_intel
  | messaging_effectiveness
  | icp_signal
deriving Repr, DecidableEq

/-- Model of `models.Importance`. -/
inductive Importance where
  | low
  | medium
  | high
deriving Repr, DecidableEq

/-! ## Source metadata and Python truthiness -/

/-- Model of `models.SourceMetadata` (pydantic model): `type` and `id` are
required strings, the remaining fields are optional strings defaulting to
`None`. -/
structure SourceMetadata where
  type : String
  id : String
  lead_id : Option String := none
  company_name : Option String := none
  extracted_quote : Option String := none
deriving Repr, DecidableEq

/-- Python truthiness of an optional string (`if source.extracted_quote:`):
`None` and the empty string are falsy, any other string is truthy. -/
def pyTruthy : Option String → Bool
  | none => false
  | some s => !s.isEmpty

/-! ## Confidence scorer (quality_gates.py) -/

/-- Model of `quality_gates.MIN_CONFIDENCE_THRESHOLD = 0.70`. -/
def MIN_CONFIDENCE_THRESHOLD : ℚ := 0.70

/-- Model of `quality_gates.DUPLICATE_SIMILARITY_THRESHOLD = 0.85`. -/
def DUPLICATE_SIMILARITY_THRESHOLD : ℚ := 0.85

/-- Model of the dict `quality_gates.SOURCE_TYPE_SCORES` together with the
`.get(source.type, 0.0)` access: `manual_entry` maps to `0.0` and any key not
in the dict falls back to the default `0.0`. -/
def SOURCE_TYPE_SCORES (t : String) : ℚ :=
  if t = "call_transcript" then 0.20
  else if t = "email_reply" then 0.10
  else if t = "linkedin_message" then 0.05
  else 0

/-- Model of Python `round(x, 2)` on the rationals reachable by the scorer.
All reachable values are integer multiples of 1/100, on which every
round-half tie rule is the identity, so the tie-breaking difference between
Python banker's rounding and Lean `round` is immaterial here. -/
def round2 (q : ℚ) : ℚ := ((round (q * 100) : ℤ) : ℚ) / 100

/-- Model of `quality_gates.calculate_confidence`: base 0.5, plus the
source-type bonus, plus 0.10 for a truthy `extracted_quote`, plus 0.10 for a
truthy `company_name`, capped at 1.0, then `round(confidence, 2)`. -/
def calculate_confidence (content : String) (source : SourceMetadata) : ℚ :=
  let confidence : ℚ := 0.5
  let confidence := confidence + SOURCE_TYPE_SCORES source.type
  let confidence := if pyTruthy source.extracted_quote then confidence + 0.10 else confidence
  let confidence := if pyTruthy source.company_name then confidence + 0.10 else confidence
  let confidence := min confidence 1
  round2 confidence

/-! ## Validation policy (quality_gates.py) -/

/-- Model of membership in `quality_gates.VALIDATION_REQUIRED_CATEGORIES`
(the frozenset holding `BUYING_PROCESS` and `ICP_SIGNAL`). -/
def VALIDATION_REQUIRED_CATEGORIES (c : InsightCategory) : Bool :=
  c = InsightCategory.buying_process ∨ c = InsightCategory.icp_signal

/-- Model of `quality_gates.should_require_validation`.  The Python function
accepts enum values or strings and normalizes strings to enums first; the
model takes the already-normalized enums (string parsing happens at the tool
boundary). -/
def should_require_validation (importance : Importance) (category : InsightCategory)
    (confidence : ℚ) : Bool :=
  if importance = Importance.high then true
  else if VALIDATION_REQUIRED_CATEGORIES category then true
  else if confidence < 0.80 then true
  else false

/-! ## Duplicate detector and quality-gate orchestrator (quality_gates.py)

The insights collection of the vector store is modelled as a list of stored
points together with an abstract similarity function: `score content p` is the
cosine similarity the store reports between the embedding of the query
`content` and the stored vector of point `p` (embeddings themselves are
external and never inspected by the code under verification). -/

/-- A stored point of the `insights` collection: its point id and the
`brain_id` field of its payload (the only payload field the duplicate
detector's filter reads). -/
structure InsightPoint where
  id : String
  brain_id : String
deriving Repr, DecidableEq

/-- Model of the `insights` collection plus the embedding-similarity oracle. -/
structure InsightStore where
  points : List InsightPoint
  score : String → InsightPoint → ℚ

/-- Model of the `client.query_points` call inside
`quality_gates.check_duplicate`: filter to points whose payload `brain_id`
matches, drop points scoring below `score_threshold = 0.85`, and return the
top-1 result by score (`limit=1`), if any. -/
def query_points_insights (store : InsightStore) (brain_id content : String) :
    Option InsightPoint :=
  (store.points.filter fun p =>
      p.brain_id == brain_id && decide (DUPLICATE_SIMILARITY_THRESHOLD ≤ store.score content p)).argmax
    (fun p => store.score content p)

/-- Model of `quality_gates.check_duplicate`: returns
`(is_duplicate, existing_id, similarity_score)`. -/
def check_duplicate (store : InsightStore) (brain_id content : String) :
    Bool × Option String × Option ℚ :=
  match query_points_insights store brain_id content with
  | some p => (true, some p.id, some (store.score content p))
  | none => (false, none, none)

/-- Rejection reasons, modelling the structure of the f-strings the code puts
in `rejection_reason` (the rendered text itself is not under verification). -/
inductive RejectionReason where
  | confidenceBelowThreshold (confidence threshold : ℚ)
  | similarInsightExists (duplicate_id : Option String) (similarity : Option ℚ)
deriving Repr, DecidableEq

/-- Model of `models.QualityGateResult`. -/
structure QualityGateResult where
  passed : Bool
  confidence_score : ℚ
  is_duplicate : Bool
  duplicate_id : Option String := none
  similarity_score : Option ℚ := none
  requires_validation : Bool
  rejection_reason : Option RejectionReason := none
deriving Repr, DecidableEq

/-- Model of `quality_gates.run_quality_gate`.  The second component of the
result instruments the control flow: it is `true` exactly when the code
reached the `check_duplicate` call, and `false` when the minimum-confidence
check returned early. -/
def run_quality_gate (store : InsightStore) (brain_id content : String)
    (category : InsightCategory) (importance : Importance) (source : SourceMetadata) :
    QualityGateResult × Bool :=
  let confidence := calculate_confidence content source
  if confidence < MIN_CONFIDENCE_THRESHOLD then
    ({ passed := false, confidence_score := confidence, is_duplicate := false,
       requires_validation := false,
       rejection_reason := some (RejectionReason.confidenceBelowThreshold
         confidence MIN_CONFIDENCE_THRESHOLD) }, false)
  else
    let res := check_duplicate store brain_id content
    if res.1 then
      ({ passed := false, confidence_score := confidence, is_duplicate := true,
         duplicate_id := res.2.1, similarity_score := res.2.2,
         requires_validation := false,
         rejection_reason := some (RejectionReason.similarInsightExists res.2.1 res.2.2) },
       true)
    else
      ({ passed := true, confidence_score := confidence, is_duplicate := false,
         requires_validation := should_require_validation importance category confidence },
       true)

/-! ## Brain-id format validation (models.py)

Model of the regex `BRAIN_ID_PATTERN = ^brain_[a-z][a-z0-9_-]*_(\d+|v\d+)$`:
after the literal prefix `brain_`, there must exist a split of the remainder
into a middle part (one lowercase letter followed by characters from
`[a-z0-9_-]`), a literal underscore, and a numeric tail (`\d+` or `v\d+`). -/

/-- Character class `[a-z]`. -/
def isLowerAlpha (c : Char) : Bool := 'a' ≤ c && c ≤ 'z'

/-- Character class `\d`. -/
def isDigitChar (c : Char) : Bool := '0' ≤ c && c ≤ '9'

/-- Character class `[a-z0-9_-]`. -/
def isMidChar (c : Char) : Bool := isLowerAlpha c || isDigitChar c || c = '_' || c = '-'

/-- Tail alternative `\d+|v\d+`. -/
def isIdTail (cs : List Char) : Bool :=
  (!cs.isEmpty && cs.all isDigitChar) ||
    (match cs with
     | 'v' :: rest => !rest.isEmpty && rest.all isDigitChar
     | _ => false)

/-- Middle part `[a-z][a-z0-9_-]*`. -/
def isIdMid (cs : List Char) : Bool :=
  match cs with
  | c :: more => isLowerAlpha c && more.all isMidChar
  | [] => false

/-- Model of `models.validate_brain_id`: full-match of `BRAIN_ID_PATTERN`. -/
def validate_brain_id (s : String) : Bool :=
  match s.data with
  | 'b' :: 'r' :: 'a' :: 'i' :: 'n' :: '_' :: rest =>
    (List.range (rest.length + 1)).any fun i =>
      isIdMid (rest.take i) &&
        (match rest.drop i with
         | '_' :: tail => isIdTail tail
         | _ => false)
  | _ => false

/-! ## Brain lifecycle state (models.py, __init__.py)

The `brains` collection is modelled as a list of brain payloads.  In the
source every brain point is stored under the point id
`generate_point_id(brain_id, brain_id)` — a fixed function of the payload's
`id` field — so (absent SHA-256 collisions) the collection is keyed by the
payload `id`; the model replaces-by-`id` on upsert accordingly.  Payload
fields never read by the lifecycle logic (name, description, config, stats,
timestamps, vectors) are omitted; they are carried unchanged by every
operation modelled here. -/

/-- The payload fields of a stored brain that the lifecycle logic reads. -/
structure Brain where
  id : String
  vertical : String
  status : BrainStatus
deriving Repr, DecidableEq

/-- Model of the `scroll` with filter `id == brain_id, limit=1` used by
`_validate_brain_exists`: the first stored brain whose payload id matches. -/
def findBrain (st : List Brain) (brain_id : String) : Option Brain :=
  st.find? fun b => b.id == brain_id

/-- Model of `qdrant.upsert` on the `brains` collection (keyed by payload id,
see above): replace the stored brain with the same id, or append. -/
def upsertBrain (st : List Brain) (b : Brain) : List Brain :=
  if st.any fun x => x.id == b.id then
    st.map fun x => if x.id == b.id then b else x
  else st ++ [b]

/-- Model of `models.VALID_TRANSITIONS`. -/
def VALID_TRANSITIONS : BrainStatus → List BrainStatus
  | BrainStatus.draft => [BrainStatus.active]
  | BrainStatus.active => [BrainStatus.archived]
  | BrainStatus.archived => [BrainStatus.active]

/-- Model of `models.validate_status_transition`:
`new in VALID_TRANSITIONS.get(current, [])`. -/
def validate_status_transition (current new : BrainStatus) : Bool :=
  decide (new ∈ VALID_TRANSITIONS current)

/-- Model of the `BrainStatus(status)` enum constructor on raw strings
(raising `ValueError`, hence `none`, on anything else). -/
def parseBrainStatus : String → Option BrainStatus
  | "active" => some BrainStatus.active
  | "draft" => some BrainStatus.draft
  | "archived" => some BrainStatus.archived
  | _ => none

/-- Error kinds of the lifecycle tools.  The source raises `ToolError` with a
message in every case; the kinds below model which message is produced. -/
inductive ToolErrorKind where
  | invalidBrainIdFormat
  | invalidStatusValue
  | notFound
  | invalidTransition
  | notSeedable
  | confirmationRequired
  | cannotDeleteActive
  | embeddingFailed
  | backendUnavailable
  | deleteBrainRecordFailed
  | contentTooShort
  | contentTooLong
  | sourceRequired
  | sourceTypeRequired
  | sourceIdRequired
deriving Repr, DecidableEq

/-- Model of `models.UpdateBrainStatusResult` (the `message` field, a purely
presentational f-string, is omitted). -/
structure UpdateBrainStatusResult where
  brain_id : String
  previous_status : BrainStatus
  new_status : BrainStatus
  deactivated_brain_id : Option String
deriving Repr, DecidableEq

/-- Loop condition `if other_brain_id and other_brain_id != brain_id` of the
auto-archival scan (a falsy — missing or empty — payload id is skipped). -/
def eligibleOther (brain_id : String) (p : Brain) : Bool :=
  !(p.id == "") && !(p.id == brain_id)

/-- Model of the auto-archival loop of `update_brain_status`: iterate over the
scanned points in order; each eligible one is upserted with status `archived`
and recorded as the deactivated brain (later iterations overwrite earlier
ones). -/
def archiveLoop (brain_id : String) : List Brain → List Brain × Option String →
    List Brain × Option String
  | [], acc => acc
  | p :: rest, acc =>
    archiveLoop brain_id rest
      (if eligibleOther brain_id p then
        (upsertBrain acc.1 { p with status := BrainStatus.archived }, some p.id)
      else acc)

/-- Model of the tool `update_brain_status` in `__init__.py`: validate the id
format, parse the status, fetch the brain (`NotFound` if absent), validate the
transition, and on activation scan the same-vertical active brains
(`limit=10`) archiving each other one, then upsert the target with its new
status.  The vector-store calls themselves are modelled as always succeeding;
backend failures are not under verification for this operation. -/
def update_brain_status (st : List Brain) (brain_id status : String) :
    Except ToolErrorKind (UpdateBrainStatusResult × List Brain) :=
  if !validate_brain_id brain_id then Except.error ToolErrorKind.invalidBrainIdFormat
  else
    match parseBrainStatus status with
    | none => Except.error ToolErrorKind.invalidStatusValue
    | some new_status =>
      match findBrain st brain_id with
      | none => Except.error ToolErrorKind.notFound
      | some brain_data =>
        let current_status := brain_data.status
        let vertical := brain_data.vertical
        if !validate_status_transition current_status new_status then
          Except.error ToolErrorKind.invalidTransition
        else
          let scanned := if new_status = BrainStatus.active then
              (st.filter fun b =>
                decide (b.vertical = vertical) && decide (b.status = BrainStatus.active)).take 10
            else []
          let step1 := archiveLoop brain_id scanned (st, none)
          let st2 := upsertBrain step1.1 { brain_data with status := new_status }
          Except.ok
            ({ brain_id := brain_id, previous_status := current_status,
               new_status := new_status, deactivated_brain_id := step1.2 }, st2)

/-! ## Deterministic point ids (models.generate_point_id)

The SHA-256 hex digest used by `generate_point_id` is an external primitive;
it is modelled below by an uninterpreted but fixed total stand-in
`sha256_hex32`.  No theorem in this development relies on any property of the
digest beyond it being a fixed function of its input (determinism); in
particular no injectivity or shape property of the stand-in is used. -/

/-- Stand-in for `hashlib.sha256(s.encode()).hexdigest()[:32]`. -/
def sha256_hex32 (s : String) : String := s

/-- Model of `models.generate_point_id`: hash the composite key
`brain_id:key_field` and format the first 32 digest characters as a UUID
(8-4-4-4-12 groups). -/
def generate_point_id (brain_id key_field : String) : String :=
  let composite_key := brain_id ++ ":" ++ key_field
  let hex_str := (sha256_hex32 composite_key).take 32
  hex_str.take 8 ++ "-" ++ ((hex_str.drop 8).take 4) ++ "-" ++ ((hex_str.drop 12).take 4)
    ++ "-" ++ ((hex_str.drop 16).take 4) ++ "-" ++ ((hex_str.drop 20).take 12)

/-! ## Batch seeding (`_seed_items_to_collection` in __init__.py)

An item dict is modelled by its string-valued fields (the only fields this
function reads — the embed field, the key field and the name fallbacks — are
strings for every seeding tool).  The embedding provider and the vector-store
upsert are modelled by success oracles `embed_ok` / `upsert_ok`; batching of
the embedding calls (100 texts per call) does not change which items are
embedded and is not modelled separately. -/

/-- A seeding item: an association list of string fields; `get` models
`dict.get` (first binding wins, `none` when the key is absent). -/
structure SeedItem where
  fields : List (String × String)
deriving Repr, DecidableEq

def SeedItem.get (item : SeedItem) (k : String) : Option String :=
  (item.fields.find? fun p => p.1 == k).map fun p => p.2

/-- Model of the name fallback chain
`item.get("name", item.get("topic", item.get("objection_text", f"item_idx")))`. -/
def itemName (item : SeedItem) (idx : ℕ) : String :=
  ((item.get "name").getD ((item.get "topic").getD ((item.get "objection_text").getD
    ("item_" ++ toString idx))))

/-- Model of `models.SeedingError`. -/
structure SeedingError where
  index : ℕ
  name : String
  error : String
deriving Repr, DecidableEq

/-- Model of `models.SeedingResult`. -/
structure SeedingResult where
  brain_id : String
  collection : String
  seeded_count : ℕ
  errors : List SeedingError
  message : String
deriving Repr, DecidableEq

/-- An item passes per-item validation when both its embed field and its key
field are present and truthy (non-empty). -/
def itemValid (item : SeedItem) (embed_field key_field : String) : Bool :=
  pyTruthy (item.get embed_field) && pyTruthy (item.get key_field)

/-- Model of the per-item validation loop of `_seed_items_to_collection`:
walks the items with their indices, collecting errors (missing embed field
checked first, then missing key field) and valid items
`(index, item, text_to_embed)` in input order. -/
def validateSeedItems (embed_field key_field : String) :
    ℕ → List SeedItem → List SeedingError × List (ℕ × SeedItem × String)
  | _, [] => ([], [])
  | idx, item :: rest =>
    let acc := validateSeedItems embed_field key_field (idx + 1) rest
    let item_name := itemName item idx
    if !pyTruthy (item.get embed_field) then
      ({ index := idx, name := item_name,
         error := "Missing required field: " ++ embed_field } :: acc.1, acc.2)
    else if !pyTruthy (item.get key_field) then
      ({ index := idx, name := item_name,
         error := "Missing required field: " ++ key_field } :: acc.1, acc.2)
    else (acc.1, (idx, item, (item.get embed_field).getD "") :: acc.2)

/-- A point upserted by seeding: its deterministic id and its payload item
(the payload also carries `brain_id` and timestamps; only the id matters to
the claims below). -/
structure SeedPoint where
  id : String
  item : SeedItem
deriving Repr, DecidableEq

/-- Model of `_seed_items_to_collection`.  Control flow follows the source:
empty batches return immediately (before any brain validation); then the
brain must exist and not be archived; items are validated individually;
an all-invalid batch returns without touching the backend; otherwise the
valid items are embedded (oracle `embed_ok`; failure raises) and upserted
under `generate_point_id(brain_id, key_value)` (oracle `upsert_ok`; failure
raises); partial failures are reported in `errors`, never raised. -/
def seed_items_to_collection (brains : List Brain) (embed_ok upsert_ok : Bool)
    (brain_id : String) (items : List SeedItem)
    (collection embed_field key_field : String) :
    Except ToolErrorKind (SeedingResult × List SeedPoint) :=
  if items.isEmpty then
    Except.ok ({ brain_id := brain_id, collection := collection, seeded_count := 0,
                 errors := [], message := "No items to seed" }, [])
  else
    if !validate_brain_id brain_id then Except.error ToolErrorKind.invalidBrainIdFormat
    else match findBrain brains brain_id with
    | none => Except.error ToolErrorKind.notFound
    | some brain_data =>
      if brain_data.status = BrainStatus.archived then Except.error ToolErrorKind.notSeedable
      else
        let vres := validateSeedItems embed_field key_field 0 items
        if vres.2.isEmpty then
          Except.ok ({ brain_id := brain_id, collection := collection, seeded_count := 0,
                       errors := vres.1,
                       message := "No valid items to seed. " ++ toString vres.1.length
                         ++ " errors." }, [])
        else
          if !embed_ok then Except.error ToolErrorKind.embeddingFailed
          else
            let points := vres.2.map fun v =>
              ({ id := generate_point_id brain_id ((v.2.1.get key_field).getD ""),
                 item := v.2.1 } : SeedPoint)
            if !upsert_ok then Except.error ToolErrorKind.backendUnavailable
            else
              Except.ok ({ brain_id := brain_id, collection := collection,
                           seeded_count := points.length, errors := vres.1,
                           message := if vres.1.length > 0 then
                               "Seeded " ++ toString points.length ++ " items with "
                                 ++ toString vres.1.length ++ " errors"
                             else "Successfully seeded " ++ toString points.length
                               ++ " items" }, points)

/-- Reference list of the indices of the items failing per-item validation,
in input order, starting from the given base index. -/
def badIndicesAux (embed_field key_field : String) : ℕ → List SeedItem → List ℕ
  | _, [] => []
  | n, item :: rest =>
    if itemValid item embed_field key_field then badIndicesAux embed_field key_field (n + 1) rest
    else n :: badIndicesAux embed_field key_field (n + 1) rest

def badIndices (items : List SeedItem) (embed_field key_field : String) : List ℕ :=
  badIndicesAux embed_field key_field 0 items

/-! ## Insight creation (add_insight in __init__.py)

The freshly drawn `str(uuid.uuid4())` of the create branch is an external
random value; it is modelled as the explicit argument `fresh_uuid`. -/

/-- The three user-visible outcomes of `add_insight` (`status` field of its
result dict): `created` carries the id actually stored as the vector-store
point id. -/
inductive AddInsightOutcome where
  | created (id : String) (confidence : ℚ) (needs_validation : Bool)
  | duplicate (existing_id : Option String)
  | rejected (reason : Option RejectionReason)
deriving Repr, DecidableEq

/-- Model of the tool `add_insight`: input validation (id format, content
length 10-5000, source present with truthy type and id; the category and
importance enums arrive already parsed), then the quality gate, then — on a
pass — creation of the insight point under the fresh random UUID. -/
def add_insight (store : InsightStore) (fresh_uuid : String) (brain_id content : String)
    (category : InsightCategory) (importance : Importance)
    (source : Option SourceMetadata) : Except ToolErrorKind AddInsightOutcome :=
  if !validate_brain_id brain_id then Except.error ToolErrorKind.invalidBrainIdFormat
  else if content.length < 10 then Except.error ToolErrorKind.contentTooShort
  else if content.length > 5000 then Except.error ToolErrorKind.contentTooLong
  else match source with
  | none => Except.error ToolErrorKind.sourceRequired
  | some src =>
    if !pyTruthy (some src.type) then Except.error ToolErrorKind.sourceTypeRequired
    else if !pyTruthy (some src.id) then Except.error ToolErrorKind.sourceIdRequired
    else
      let gate := run_quality_gate store brain_id content category importance src
      if !gate.1.passed then
        if gate.1.is_duplicate then Except.ok (AddInsightOutcome.duplicate gate.1.duplicate_id)
        else Except.ok (AddInsightOutcome.rejected gate.1.rejection_reason)
      else Except.ok (AddInsightOutcome.created fresh_uuid gate.1.confidence_score
        gate.1.requires_validation)

/-! ## Cascade deletion (delete_brain in __init__.py) -/

/-- A stored content point of one of the dependent collections. -/
structure ContentPoint where
  collection : String
  point_id : String
  brain_id : String
deriving Repr, DecidableEq

/-- The whole knowledge-base state touched by `delete_brain`: the brains
collection plus the dependent content collections (flattened, tagged by
collection name). -/
structure KBState where
  brains : List Brain
  content : List ContentPoint
deriving Repr, DecidableEq

/-- The dependent collections cascade-deleted by `delete_brain`, in source
order. -/
def CONTENT_COLLECTIONS : List String :=
  ["icp_rules", "response_templates", "objection_handlers", "market_research", "insights"]

/-- Model of one iteration of the cascade loop: scroll the brain's points of
one collection (`limit=10000`), count them, and delete exactly those point
ids from that collection. -/
def deleteContentFor (c brain_id : String) (content : List ContentPoint) :
    ℕ × List ContentPoint :=
  let matched := (content.filter fun p => p.collection == c && p.brain_id == brain_id).take 10000
  let ids := matched.map fun p => p.point_id
  (matched.length,
   content.filter fun p => !(p.collection == c && decide (p.point_id ∈ ids)))

/-- Model of the cascade loop over all dependent collections, returning the
per-collection deleted counts (in collection order) and the remaining
content. -/
def cascadeDelete (brain_id : String) : List String → List ContentPoint →
    List (String × ℕ) × List ContentPoint
  | [], content => ([], content)
  | c :: rest, content =>
    let r := deleteContentFor c brain_id content
    let acc := cascadeDelete brain_id rest r.2
    ((c, r.1) :: acc.1, acc.2)

/-- Model of `models.DeleteBrainResult` (message omitted). -/
structure DeleteBrainResult where
  brain_id : String
  deleted_content : List (String × ℕ)
deriving Repr, DecidableEq

/-- Model of the tool `delete_brain`.  Guards in source order: the `confirm`
flag, the id format, existence, and the active-status check — all evaluated
before any deletion.  Then the content collections are cascade-deleted, and
finally the brain record itself is removed; the final record removal may hit
a backend failure (`record_delete_ok = false`), which raises the
"Failed to delete brain record" error after the content was already removed.
The returned state is the store as the call leaves it, error or not. -/
def delete_brain (st : KBState) (record_delete_ok : Bool) (brain_id : String)
    (confirm : Bool) : Except ToolErrorKind DeleteBrainResult × KBState :=
  if !confirm then (Except.error ToolErrorKind.confirmationRequired, st)
  else if !validate_brain_id brain_id then
    (Except.error ToolErrorKind.invalidBrainIdFormat, st)
  else match findBrain st.brains brain_id with
  | none => (Except.error ToolErrorKind.notFound, st)
  | some brain_data =>
    if brain_data.status = BrainStatus.active then
      (Except.error ToolErrorKind.cannotDeleteActive, st)
    else
      let cd := cascadeDelete brain_id CONTENT_COLLECTIONS st.content
      if !record_delete_ok then
        (Except.error ToolErrorKind.deleteBrainRecordFailed,
         { brains := st.brains, content := cd.2 })
      else
        let brains' := match findBrain st.brains brain_id with
          | some _ => st.brains.eraseP fun b => b.id == brain_id
          | none => st.brains
        (Except.ok { brain_id := brain_id, deleted_content := cd.1 },
         { brains := brains', content := cd.2 })


/-! # Lemmas and claim theorems -/

/-! ## Helper lemmas for the scorer -/

lemma round2_int_div (n : ℤ) : round2 ((n : ℚ) / 100) = (n : ℚ) / 100 := by
  unfold round2
  rw [div_mul_cancel₀ _ (by norm_num : (100 : ℚ) ≠ 0), round_intCast]

lemma source_type_scores_cases (t : String) :
    SOURCE_TYPE_SCORES t = 0.20 ∨ SOURCE_TYPE_SCORES t = 0.10 ∨
      SOURCE_TYPE_SCORES t = 0.05 ∨ SOURCE_TYPE_SCORES t = 0 := by
  unfold SOURCE_TYPE_SCORES
  split_ifs <;> simp

/-- The scorer computes the clamped additive formula exactly: on every
reachable value the cap at 1.0 and the 2-decimal rounding are the identity. -/
lemma calculate_confidence_formula (content : String) (source : SourceMetadata) :
    calculate_confidence content source =
      min (0.5 + SOURCE_TYPE_SCORES source.type
        + (if pyTruthy source.extracted_quote then 0.10 else 0)
        + (if pyTruthy source.company_name then 0.10 else 0)) 1 := by
  rcases source_type_scores_cases source.type with h | h | h | h <;>
    cases hq : pyTruthy source.extracted_quote <;>
    cases hc : pyTruthy source.company_name <;>
    simp only [calculate_confidence, h, hq, hc] <;>
    norm_num [round2, round_eq, min_def]

/-! ## Claim C4: confidence scoring formula -/

/-- Claim C4: for every content string and source record the confidence equals
base 0.5 plus the source-type bonus (call_transcript +0.20, email_reply +0.10,
linkedin_message +0.05, manual_entry or unrecognized +0.00) plus 0.10 when
`extracted_quote` is present and non-empty plus 0.10 when `company_name` is
present and non-empty, clamped to at most 1.0; a call_transcript source with
both optional bonuses yields exactly 0.9, a manual_entry source with neither
yields exactly 0.5, and the output always lies in [0, 1]. -/
theorem calculate_confidence_spec (content : String) (source : SourceMetadata) :
    (calculate_confidence content source =
      min (0.5 + SOURCE_TYPE_SCORES source.type
        + (if pyTruthy source.extracted_quote then 0.10 else 0)
        + (if pyTruthy source.company_name then 0.10 else 0)) 1)
    ∧ (source.type = "call_transcript" → pyTruthy source.extracted_quote = true →
        pyTruthy source.company_name = true → calculate_confidence content source = 0.9)
    ∧ (source.type = "manual_entry" → pyTruthy source.extracted_quote = false →
        pyTruthy source.company_name = false → calculate_confidence content source = 0.5)
    ∧ 0 ≤ calculate_confidence content source
    ∧ calculate_confidence content source ≤ 1 := by
  have key := calculate_confidence_formula content source
  have hct : SOURCE_TYPE_SCORES "call_transcript" = 0.20 := by norm_num [SOURCE_TYPE_SCORES]
  have hme : SOURCE_TYPE_SCORES "manual_entry" = 0 := by
    unfold SOURCE_TYPE_SCORES
    rw [if_neg (by decide), if_neg (by decide), if_neg (by decide)]
  refine ⟨key, ?_, ?_, ?_, ?_⟩
  · intro ht hq hc
    rw [key, ht, hq, hc, hct]
    norm_num [min_def]
  · intro ht hq hc
    rw [key, ht, hq, hc, hme]
    norm_num [min_def]
  · rw [key]
    rcases source_type_scores_cases source.type with h | h | h | h <;> rw [h] <;>
      cases hq : pyTruthy source.extracted_quote <;>
      cases hc : pyTruthy source.company_name <;> norm_num
  · rw [key]
    exact min_le_right _ _

/-- Witness for C4 at a concrete input: a call_transcript source with company
and quote scores exactly 0.9. -/
theorem calculate_confidence_spec_witness :
    calculate_confidence "they use a legacy CRM"
      { type := "call_transcript", id := "call_1",
        company_name := some "Acme", extracted_quote := some "we hate it" } = 0.9 := by
  exact (calculate_confidence_spec "they use a legacy CRM"
    { type := "call_transcript", id := "call_1",
      company_name := some "Acme", extracted_quote := some "we hate it" }).2.1
    rfl (by decide) (by decide)

/-! ## Claim C5: validation policy -/

/-- Claim C5: `should_require_validation` returns true exactly when importance
is high, or the category is buying_process or icp_signal, or the confidence is
strictly below 0.80; confidence exactly 0.80 with non-high importance and a
non-strategic category gives false, and high importance always gives true. -/
theorem should_require_validation_spec (imp : Importance) (cat : InsightCategory) (conf : ℚ) :
    (should_require_validation imp cat conf = true ↔
      (imp = Importance.high ∨ cat = InsightCategory.buying_process ∨
        cat = InsightCategory.icp_signal ∨ conf < 0.80))
    ∧ (imp ≠ Importance.high → cat ≠ InsightCategory.buying_process →
        cat ≠ InsightCategory.icp_signal →
        should_require_validation imp cat (0.80 : ℚ) = false)
    ∧ should_require_validation Importance.high cat conf = true := by
  refine ⟨?_, ?_, ?_⟩
  · unfold should_require_validation VALIDATION_REQUIRED_CATEGORIES
    by_cases h : conf < 0.80 <;>
      cases imp <;> cases cat <;> simp_all
  · intro h1 h2 h3
    unfold should_require_validation VALIDATION_REQUIRED_CATEGORIES
    cases imp <;> cases cat <;> simp_all
  · unfold should_require_validation
    simp

/-- Witness for C5 at concrete inputs: the 0.80 boundary does not require
validation for a low-importance pain_point, and high importance does. -/
theorem should_require_validation_spec_witness :
    should_require_validation Importance.low InsightCategory.pain_point (0.80 : ℚ) = false
    ∧ should_require_validation Importance.high InsightCategory.pain_point (0.99 : ℚ) = true := by
  refine ⟨?_, ?_⟩
  · exact (should_require_validation_spec Importance.low InsightCategory.pain_point 0.80).2.1
      (by decide) (by decide) (by decide)
  · exact (should_require_validation_spec Importance.high InsightCategory.pain_point 0.99).2.2

/-! ## Claim C1: quality-gate evaluation order and outcomes -/

/-- Claim C1: a confidence below 0.70 yields a rejection produced without
invoking duplicate detection; otherwise duplicate detection runs (scoped to
the brain, top-1, threshold 0.85): when no brain-scoped neighbor reaches 0.85
the result is Passed with the confidence and the requires_validation flag, and
when some brain-scoped neighbor reaches 0.85 the result is Duplicate carrying
the id and similarity of a maximal such neighbor. -/
theorem run_quality_gate_spec (store : InsightStore) (brain_id content : String)
    (category : InsightCategory) (importance : Importance) (source : SourceMetadata) :
    (calculate_confidence content source < 0.70 →
      run_quality_gate store brain_id content category importance source =
        ({ passed := false, confidence_score := calculate_confidence content source,
           is_duplicate := false, requires_validation := false,
           rejection_reason := some (RejectionReason.confidenceBelowThreshold
             (calculate_confidence content source) 0.70) }, false))
    ∧ ((0.70 : ℚ) ≤ calculate_confidence content source →
        (run_quality_gate store brain_id content category importance source).2 = true
        ∧ ((∀ p ∈ store.points, p.brain_id = brain_id → store.score content p < 0.85) →
            (run_quality_gate store brain_id content category importance source).1 =
              { passed := true, confidence_score := calculate_confidence content source,
                is_duplicate := false,
                requires_validation := should_require_validation importance category
                  (calculate_confidence content source) })
        ∧ (∀ p ∈ store.points, p.brain_id = brain_id →
            (0.85 : ℚ) ≤ store.score content p →
            ∃ q ∈ store.points, q.brain_id = brain_id
              ∧ (0.85 : ℚ) ≤ store.score content q
              ∧ store.score content p ≤ store.score content q
              ∧ (run_quality_gate store brain_id content category importance source).1.passed
                  = false
              ∧ (run_quality_gate store brain_id content category importance source).1.is_duplicate
                  = true
              ∧ (run_quality_gate store brain_id content category importance source).1.duplicate_id
                  = some q.id
              ∧ (run_quality_gate store brain_id content category importance source).1.similarity_score
                  = some (store.score content q))) := by
  constructor
  · intro h
    unfold run_quality_gate
    rw [if_pos (by exact_mod_cast h)]
    rfl
  · intro h
    have hnot : ¬ calculate_confidence content source < MIN_CONFIDENCE_THRESHOLD := by
      unfold MIN_CONFIDENCE_THRESHOLD
      exact not_lt.mpr h
    refine ⟨?_, ?_, ?_⟩
    · unfold run_quality_gate
      rw [if_neg hnot]
      by_cases hd : (check_duplicate store brain_id content).1 <;> simp [hd]
    · intro hall
      have hfilter : (store.points.filter fun p =>
          p.brain_id == brain_id && decide (DUPLICATE_SIMILARITY_THRESHOLD ≤ store.score content p))
          = [] := by
        rw [List.filter_eq_nil_iff]
        intro p hp
        simp only [Bool.and_eq_true, beq_iff_eq, decide_eq_true_eq, not_and]
        intro hb
        unfold DUPLICATE_SIMILARITY_THRESHOLD
        exact not_le.mpr (hall p hp hb)
      have hq : query_points_insights store brain_id content = none := by
        unfold query_points_insights
        rw [hfilter]
        rfl
      have hcd : check_duplicate store brain_id content = (false, none, none) := by
        unfold check_duplicate
        rw [hq]
      unfold run_quality_gate
      rw [if_neg hnot, hcd]
      rfl
    · intro p hp hpb hps
      have hpf : p ∈ (store.points.filter fun p =>
          p.brain_id == brain_id && decide (DUPLICATE_SIMILARITY_THRESHOLD ≤ store.score content p)) := by
        rw [List.mem_filter]
        refine ⟨hp, ?_⟩
        simp only [Bool.and_eq_true, beq_iff_eq, decide_eq_true_eq]
        exact ⟨hpb, by unfold DUPLICATE_SIMILARITY_THRESHOLD; exact_mod_cast hps⟩
      obtain ⟨q, hq⟩ : ∃ q, query_points_insights store brain_id content = some q := by
        unfold query_points_insights
        rcases ho : (store.points.filter fun p =>
            p.brain_id == brain_id && decide (DUPLICATE_SIMILARITY_THRESHOLD ≤ store.score content p)).argmax
            (fun p => store.score content p) with _ | q
        · rw [List.argmax_eq_none] at ho
          rw [ho] at hpf
          exact absurd hpf (List.not_mem_nil p)
        · exact ⟨q, ho⟩
      have hqmem : q ∈ (store.points.filter fun p =>
          p.brain_id == brain_id && decide (DUPLICATE_SIMILARITY_THRESHOLD ≤ store.score content p)) :=
        List.argmax_mem hq
      have hqle : store.score content p ≤ store.score content q :=
        List.le_of_mem_argmax hpf hq
      rw [List.mem_filter] at hqmem
      obtain ⟨hqmem', hqprop⟩ := hqmem
      simp only [Bool.and_eq_true, beq_iff_eq, decide_eq_true_eq] at hqprop
      have hcd : check_duplicate store brain_id content =
          (true, some q.id, some (store.score content q)) := by
        unfold check_duplicate
        rw [hq]
      refine ⟨q, hqmem', hqprop.1, by exact_mod_cast hqprop.2, hqle, ?_, ?_, ?_, ?_⟩ <;>
        · unfold run_quality_gate
          rw [if_neg hnot, hcd]
          rfl

lemma conf_manual_plain :
    calculate_confidence "some content" { type := "manual_entry", id := "m1" } = 0.5 := by
  rw [calculate_confidence_formula]
  norm_num [SOURCE_TYPE_SCORES, pyTruthy, min_def,
    eq_false (show ¬("manual_entry" = "call_transcript") by decide),
    eq_false (show ¬("manual_entry" = "email_reply") by decide),
    eq_false (show ¬("manual_entry" = "linkedin_message") by decide)]

lemma conf_call_full :
    calculate_confidence "some content"
      { type := "call_transcript", id := "c1", company_name := some "Acme",
        extracted_quote := some "quote" } = 0.9 := by
  rw [calculate_confidence_formula]
  norm_num [SOURCE_TYPE_SCORES, pyTruthy, min_def,
    show ("quote".isEmpty) = false from by decide,
    show ("Acme".isEmpty) = false from by decide]

/-- Witness for C1 at concrete inputs: a low-confidence manual entry is
rejected with the duplicate check not invoked, and a high-confidence call
transcript whose content matches a stored neighbor at similarity 0.9 is
flagged duplicate. -/
theorem run_quality_gate_spec_witness :
    (run_quality_gate ⟨[], fun _ _ => 0⟩ "brain_v_1" "some content"
        InsightCategory.pain_point Importance.low { type := "manual_entry", id := "m1" }).2 = false
    ∧ (run_quality_gate ⟨[⟨"pt1", "brain_v_1"⟩], fun _ _ => 0.9⟩ "brain_v_1" "some content"
        InsightCategory.pain_point Importance.low
        { type := "call_transcript", id := "c1", company_name := some "Acme",
          extracted_quote := some "quote" }).1.duplicate_id = some "pt1" := by
  constructor
  · have h := (run_quality_gate_spec ⟨[], fun _ _ => 0⟩ "brain_v_1" "some content"
      InsightCategory.pain_point Importance.low { type := "manual_entry", id := "m1" }).1
      (by rw [conf_manual_plain]; norm_num)
    rw [h]
  · have h := ((run_quality_gate_spec ⟨[⟨"pt1", "brain_v_1"⟩], fun _ _ => 0.9⟩ "brain_v_1"
      "some content" InsightCategory.pain_point Importance.low
      { type := "call_transcript", id := "c1", company_name := some "Acme",
        extracted_quote := some "quote" }).2
      (by rw [conf_call_full]; norm_num)).2.2
      ⟨"pt1", "brain_v_1"⟩ (by simp) rfl (by norm_num)
    obtain ⟨q, hqmem, hqb, hqs, hqle, hpassed, hdup, hid, hsim⟩ := h
    simp only [List.mem_singleton] at hqmem
    rw [hid, hqmem]

/-! ## Helper lemmas for the lifecycle model -/

lemma upsertBrain_of_mem (st : List Brain) (b : Brain)
    (h : (st.any fun x => x.id == b.id) = true) :
    upsertBrain st b = st.map fun x => if x.id == b.id then b else x := by
  unfold upsertBrain
  rw [if_pos h]

lemma upsertBrain_map_id_of_mem (st : List Brain) (b : Brain)
    (h : (st.any fun x => x.id == b.id) = true) :
    (upsertBrain st b).map Brain.id = st.map Brain.id := by
  rw [upsertBrain_of_mem st b h, List.map_map]
  apply List.map_congr_left
  intro x _
  by_cases hid : x.id = b.id
  · simp [Function.comp_apply, hid]
  · simp [Function.comp_apply, hid]

lemma findBrain_eq_some {st : List Brain} {bid : String} {b : Brain}
    (h : findBrain st bid = some b) : b ∈ st ∧ b.id = bid := by
  unfold findBrain at h
  refine ⟨List.mem_of_find?_eq_some h, ?_⟩
  have := List.find?_some h
  simpa using this

/-- Distinct ids force distinct brains within a Nodup-id state. -/
lemma id_inj_of_nodup {st : List Brain} (hnodup : (st.map Brain.id).Nodup)
    {x y : Brain} (hx : x ∈ st) (hy : y ∈ st) (hid : x.id = y.id) : x = y :=
  List.inj_on_of_nodup_map hnodup hx hy hid

/-- The archive loop rewrites the state pointwise: every scanned eligible
brain is replaced by its archived copy, everything else is untouched. -/
lemma archiveLoop_fst_eq_map (brain_id : String) (others : List Brain) :
    ∀ (st : List Brain) (d : Option String),
    (st.map Brain.id).Nodup →
    (∀ p ∈ others, p ∈ st) →
    (others.map Brain.id).Nodup →
    (archiveLoop brain_id others (st, d)).1 =
      st.map fun x => if x ∈ others ∧ eligibleOther brain_id x then
        { x with status := BrainStatus.archived } else x := by
  induction others with
  | nil =>
    intro st d _ _ _
    simp [archiveLoop]
  | cons p rest ih =>
    intro st d hnodup hsub honodup
    have hpmem : p ∈ st := hsub p (List.mem_cons_self p rest)
    have hpid_notin_rest : p.id ∉ rest.map Brain.id := by
      have := honodup
      simp only [List.map_cons, List.nodup_cons] at this
      exact this.1
    have honodup' : (rest.map Brain.id).Nodup := by
      simp only [List.map_cons, List.nodup_cons] at honodup
      exact honodup.2
    have hp_notin_rest : p ∉ rest := fun hc =>
      hpid_notin_rest (List.mem_map_of_mem Brain.id hc)
    by_cases he : eligibleOther brain_id p
    · have hany : (st.any fun x =>
          x.id == ({ p with status := BrainStatus.archived } : Brain).id) = true := by
        rw [List.any_eq_true]
        exact ⟨p, hpmem, by simp⟩
      have hstep : archiveLoop brain_id (p :: rest) (st, d) =
          archiveLoop brain_id rest
            (upsertBrain st { p with status := BrainStatus.archived }, some p.id) := by
        simp [archiveLoop, he]
      rw [hstep]
      set st1 := upsertBrain st { p with status := BrainStatus.archived } with hst1
      have hst1_eq : st1 = st.map fun x =>
          if x.id == p.id then { p with status := BrainStatus.archived } else x := by
        rw [hst1, upsertBrain_of_mem st _ hany]
      have hids1 : st1.map Brain.id = st.map Brain.id :=
        upsertBrain_map_id_of_mem st _ hany
      have hnodup1 : (st1.map Brain.id).Nodup := by rw [hids1]; exact hnodup
      have hsub1 : ∀ q ∈ rest, q ∈ st1 := by
        intro q hq
        have hqst : q ∈ st := hsub q (List.mem_cons_of_mem p hq)
        have hqid : q.id ≠ p.id := fun hc => by
          have : Brain.id q ∈ rest.map Brain.id := List.mem_map_of_mem Brain.id hq
          rw [hc] at this
          exact hpid_notin_rest this
        rw [hst1_eq]
        exact List.mem_map.mpr ⟨q, hqst, by simp [hqid]⟩
      rw [ih st1 (some p.id) hnodup1 hsub1 honodup']
      rw [hst1_eq, List.map_map]
      apply List.map_congr_left
      intro x hx
      simp only [Function.comp_apply]
      by_cases hxp : x.id = p.id
      · have hxeq : x = p := id_inj_of_nodup hnodup hx hpmem hxp
        subst hxeq
        have harch_notin : ({ x with status := BrainStatus.archived } : Brain) ∉ rest := by
          intro hc
          have h' : Brain.id ({ x with status := BrainStatus.archived } : Brain)
              ∈ rest.map Brain.id := List.mem_map_of_mem Brain.id hc
          exact hpid_notin_rest h'
        have hcond : x ∈ x :: rest ∧ eligibleOther brain_id x = true :=
          ⟨List.mem_cons_self x rest, he⟩
        simp only [beq_self_eq_true, if_true]
        rw [if_neg (fun hcon => harch_notin hcon.1), if_pos hcond]
      · simp only [beq_iff_eq, if_neg hxp]
        have hxnep : x ≠ p := fun hc => hxp (hc ▸ rfl)
        by_cases hxr : x ∈ rest ∧ eligibleOther brain_id x = true
        · have hcond : x ∈ p :: rest ∧ eligibleOther brain_id x = true :=
            ⟨List.mem_cons_of_mem p hxr.1, hxr.2⟩
          rw [if_pos hxr, if_pos hcond]
        · have hcond : ¬(x ∈ p :: rest ∧ eligibleOther brain_id x = true) := by
            rintro ⟨hmem, helig⟩
            rcases List.mem_cons.mp hmem with hceq | hcr
            · exact hxnep hceq
            · exact hxr ⟨hcr, helig⟩
          rw [if_neg hxr, if_neg hcond]
    · have hstep : archiveLoop brain_id (p :: rest) (st, d) =
          archiveLoop brain_id rest (st, d) := by
        simp [archiveLoop, he]
      rw [hstep, ih st d hnodup (fun q hq => hsub q (List.mem_cons_of_mem p hq)) honodup']
      apply List.map_congr_left
      intro x hx
      by_cases hxr : x ∈ rest ∧ eligibleOther brain_id x = true
      · have hcond : x ∈ p :: rest ∧ eligibleOther brain_id x = true :=
          ⟨List.mem_cons_of_mem p hxr.1, hxr.2⟩
        rw [if_pos hxr, if_pos hcond]
      · have hcond : ¬(x ∈ p :: rest ∧ eligibleOther brain_id x = true) := by
          rintro ⟨hmem, helig⟩
          rcases List.mem_cons.mp hmem with hceq | hcr
          · subst hceq
            rw [helig] at he
            exact he rfl
          · exact hxr ⟨hcr, helig⟩
        rw [if_neg hxr, if_neg hcond]

/-- The deactivated-id tracker of the archive loop: the last eligible scanned
brain wins (or the initial value when none is eligible). -/
lemma archiveLoop_snd (brain_id : String) (others : List Brain) :
    ∀ (st : List Brain) (d : Option String),
    (archiveLoop brain_id others (st, d)).2 =
      (others.filter (eligibleOther brain_id)).foldl (fun _ p => some p.id) d := by
  induction others with
  | nil => intro st d; simp [archiveLoop]
  | cons p rest ih =>
    intro st d
    by_cases he : eligibleOther brain_id p
    · simp only [archiveLoop, he, if_pos, List.filter_cons_of_pos he, List.foldl_cons]
      exact ih _ (some p.id)
    · simp only [archiveLoop, he, List.filter_cons_of_neg he]
      rw [if_neg (by simp [he])]
      exact ih st d

lemma foldl_some_id (l : List Brain) :
    ∀ d : Option String,
    (l = [] ∧ l.foldl (fun _ p => some p.id) d = d) ∨
      ∃ a ∈ l, l.foldl (fun _ p => some p.id) d = some a.id := by
  induction l with
  | nil => intro d; exact Or.inl ⟨rfl, rfl⟩
  | cons p rest ih =>
    intro d
    rcases ih (some p.id) with ⟨hnil, heq⟩ | ⟨a, ha, heq⟩
    · refine Or.inr ⟨p, List.mem_cons_self p rest, ?_⟩
      simpa [hnil] using heq
    · exact Or.inr ⟨a, List.mem_cons_of_mem p ha, by simpa using heq⟩

lemma transition_table_iff (cur ns : BrainStatus) :
    validate_status_transition cur ns = true ↔
      ((cur = BrainStatus.draft ∧ ns = BrainStatus.active) ∨
       (cur = BrainStatus.active ∧ ns = BrainStatus.archived) ∨
       (cur = BrainStatus.archived ∧ ns = BrainStatus.active)) := by
  cases cur <;> cases ns <;> simp [validate_status_transition, VALID_TRANSITIONS]

/-- Inversion of a successful `update_brain_status` call: the guards passed
and the result has the shape built by the success branch. -/
lemma update_brain_status_ok_inv {st : List Brain} {bid status : String}
    {r : UpdateBrainStatusResult} {st' : List Brain}
    (h : update_brain_status st bid status = Except.ok (r, st')) :
    ∃ ns b, validate_brain_id bid = true ∧ parseBrainStatus status = some ns ∧
      findBrain st bid = some b ∧ validate_status_transition b.status ns = true ∧
      r = { brain_id := bid, previous_status := b.status, new_status := ns,
            deactivated_brain_id := (archiveLoop bid
              (if ns = BrainStatus.active then
                (st.filter fun x => decide (x.vertical = b.vertical) &&
                  decide (x.status = BrainStatus.active)).take 10
              else []) (st, none)).2 }
        ∧ st' = upsertBrain (archiveLoop bid
            (if ns = BrainStatus.active then
              (st.filter fun x => decide (x.vertical = b.vertical) &&
                decide (x.status = BrainStatus.active)).take 10
            else []) (st, none)).1 { b with status := ns } := by
  cases hv : validate_brain_id bid
  · simp [update_brain_status, hv] at h
  · cases hns : parseBrainStatus status with
    | none => simp [update_brain_status, hv, hns] at h
    | some ns =>
      cases hb : findBrain st bid with
      | none => simp [update_brain_status, hv, hns, hb] at h
      | some b =>
        cases hts : validate_status_transition b.status ns
        · simp [update_brain_status, hv, hns, hb, hts] at h
        · refine ⟨ns, b, rfl, rfl, rfl, hts, ?_⟩
          simp only [update_brain_status, hv, hns, hb, hts, Bool.not_true,
            Bool.false_eq_true, if_false, Except.ok.injEq, Prod.mk.injEq] at h
          exact ⟨h.1.symm, h.2.symm⟩

/-! ## Claim C3: the transition table of update_brain_status -/

/-- Claim C3: with a well-formed brain_id and a valid status string,
`update_brain_status` fails with the not-found error when no brain has that
id; when the brain exists the call succeeds exactly for the transitions
draft→active, active→archived and archived→active (reporting the previous and
new status), and fails with the invalid-transition error for every other
(from, to) pair, including every self-transition. -/
theorem update_brain_status_transition_table (st : List Brain) (bid status : String) :
    (validate_brain_id bid = true → (∃ ns, parseBrainStatus status = some ns) →
      findBrain st bid = none →
      update_brain_status st bid status = Except.error ToolErrorKind.notFound)
    ∧ (∀ ns b, validate_brain_id bid = true → parseBrainStatus status = some ns →
        findBrain st bid = some b →
        (((∃ p : UpdateBrainStatusResult × List Brain,
            update_brain_status st bid status = Except.ok p
              ∧ p.1.previous_status = b.status ∧ p.1.new_status = ns) ↔
          ((b.status = BrainStatus.draft ∧ ns = BrainStatus.active) ∨
           (b.status = BrainStatus.active ∧ ns = BrainStatus.archived) ∨
           (b.status = BrainStatus.archived ∧ ns = BrainStatus.active)))
         ∧ (¬((b.status = BrainStatus.draft ∧ ns = BrainStatus.active) ∨
              (b.status = BrainStatus.active ∧ ns = BrainStatus.archived) ∨
              (b.status = BrainStatus.archived ∧ ns = BrainStatus.active)) →
            update_brain_status st bid status =
              Except.error ToolErrorKind.invalidTransition))) := by
  constructor
  · rintro hv ⟨ns, hns⟩ hnone
    simp [update_brain_status, hv, hns, hnone]
  · intro ns b hv hns hb
    constructor
    · constructor
      · rintro ⟨p, hp, hprev, hnew⟩
        rw [← transition_table_iff]
        cases hts : validate_status_transition b.status ns
        · simp [update_brain_status, hv, hns, hb, hts] at hp
        · rfl
      · intro htab
        have hts : validate_status_transition b.status ns = true :=
          (transition_table_iff b.status ns).mpr htab
        rcases hu : update_brain_status st bid status with e | p
        · exfalso
          simp [update_brain_status, hv, hns, hb, hts] at hu
        · refine ⟨p, rfl, ?_, ?_⟩ <;>
          · simp only [update_brain_status, hv, hns, hb, hts, Bool.not_true,
              Bool.false_eq_true, if_false, Except.ok.injEq] at hu
            rw [← hu]
    · intro hnotab
      have hts : validate_status_transition b.status ns = false := by
        cases hvt : validate_status_transition b.status ns
        · rfl
        · exact absurd ((transition_table_iff b.status ns).mp hvt) hnotab
      simp [update_brain_status, hv, hns, hb, hts]

/-- Witness for C3 at concrete inputs: on a one-brain state, draft→active
succeeds, active→draft is the invalid-transition error, and an unknown (but
well-formed) id is the not-found error. -/
theorem update_brain_status_transition_table_witness :
    (∃ p : UpdateBrainStatusResult × List Brain,
      update_brain_status [Brain.mk "brain_v_1" "v" BrainStatus.draft] "brain_v_1" "active"
        = Except.ok p ∧ p.1.previous_status = BrainStatus.draft
        ∧ p.1.new_status = BrainStatus.active)
    ∧ update_brain_status [Brain.mk "brain_v_1" "v" BrainStatus.active] "brain_v_1" "draft"
        = Except.error ToolErrorKind.invalidTransition
    ∧ update_brain_status [Brain.mk "brain_v_1" "v" BrainStatus.draft] "brain_v_9" "active"
        = Except.error ToolErrorKind.notFound := by
  refine ⟨?_, ?_, ?_⟩
  · exact (((update_brain_status_transition_table
      [Brain.mk "brain_v_1" "v" BrainStatus.draft] "brain_v_1" "active").2
      BrainStatus.active (Brain.mk "brain_v_1" "v" BrainStatus.draft)
      (by decide) rfl rfl).1).mpr (Or.inl ⟨rfl, rfl⟩)
  · exact ((update_brain_status_transition_table
      [Brain.mk "brain_v_1" "v" BrainStatus.active] "brain_v_1" "draft").2
      BrainStatus.draft (Brain.mk "brain_v_1" "v" BrainStatus.active)
      (by decide) rfl rfl).2 (by decide)
  · exact (update_brain_status_transition_table
      [Brain.mk "brain_v_1" "v" BrainStatus.draft] "brain_v_9" "active").1
      (by decide) ⟨BrainStatus.active, rfl⟩ (by decide)

/-! ## Claim C2: activation archives the competing active brains -/

/-- Claim C2 (amended): for a successful activation on a well-formed state
(non-empty distinct ids) in which at most 10 brains of the target's vertical
are active — the scan is capped at `limit=10` — every other active brain of
that vertical is force-archived, the target becomes the unique active brain of
its vertical, `deactivated_brain_id` reports the id of one of the previously
active brains (none when none existed), and brains of other verticals are
untouched. -/
theorem update_brain_status_activation
    (st : List Brain) (bid : String) (b : Brain)
    (r : UpdateBrainStatusResult) (st' : List Brain)
    (hnodup : (st.map Brain.id).Nodup)
    (hids : ∀ x ∈ st, x.id ≠ "")
    (hb : findBrain st bid = some b)
    (hcount : (st.filter fun x =>
        decide (x.vertical = b.vertical) && decide (x.status = BrainStatus.active)).length ≤ 10)
    (h : update_brain_status st bid "active" = Except.ok (r, st')) :
    ({ b with status := BrainStatus.active } ∈ st')
    ∧ (∀ y ∈ st', y.status = BrainStatus.active → y.vertical = b.vertical →
        y = { b with status := BrainStatus.active })
    ∧ (∀ x ∈ st, x.vertical = b.vertical → x.status = BrainStatus.active →
        { x with status := BrainStatus.archived } ∈ st')
    ∧ ((∀ x ∈ st, x.vertical = b.vertical → x.status ≠ BrainStatus.active) →
        r.deactivated_brain_id = none)
    ∧ ((∃ x ∈ st, x.vertical = b.vertical ∧ x.status = BrainStatus.active) →
        ∃ a ∈ st, a.vertical = b.vertical ∧ a.status = BrainStatus.active
          ∧ r.deactivated_brain_id = some a.id)
    ∧ (∀ y ∈ st', y.vertical ≠ b.vertical → y ∈ st)
    ∧ (∀ x ∈ st, x.vertical ≠ b.vertical → x ∈ st') := by
  obtain ⟨ns, b', hv, hns, hb', hts, hr, hst'⟩ := update_brain_status_ok_inv h
  rw [show parseBrainStatus "active" = some BrainStatus.active from rfl] at hns
  have hnsa : ns = BrainStatus.active := (Option.some.inj hns).symm
  subst hnsa
  rw [hb] at hb'
  obtain rfl : b = b' := Option.some.inj hb'
  obtain ⟨hbmem, hbid⟩ := findBrain_eq_some hb
  have hbnotact : b.status ≠ BrainStatus.active := by
    intro hc
    rw [hc] at hts
    exact absurd hts (by decide)
  set flt := st.filter fun x =>
      decide (x.vertical = b.vertical) && decide (x.status = BrainStatus.active) with hflt
  have htake : flt.take 10 = flt := List.take_of_length_le hcount
  rw [if_pos rfl, htake] at hr hst'
  have hfltmem : ∀ x, x ∈ flt ↔
      (x ∈ st ∧ x.vertical = b.vertical ∧ x.status = BrainStatus.active) := by
    intro x
    rw [hflt, List.mem_filter]
    simp [and_assoc]
  have helig : ∀ x ∈ flt, eligibleOther bid x = true := by
    intro x hx
    rw [hfltmem] at hx
    obtain ⟨hxst, hxv, hxa⟩ := hx
    have h1 : x.id ≠ "" := hids x hxst
    have h2 : x.id ≠ bid := by
      intro hc
      have hxb : x = b := id_inj_of_nodup hnodup hxst hbmem (by rw [hc, hbid])
      rw [hxb] at hxa
      exact hbnotact hxa
    simp [eligibleOther, h1, h2]
  have hflt_sub : ∀ p ∈ flt, p ∈ st := by
    intro p hp
    exact (List.mem_filter.mp hp).1
  have hflt_nodup : (flt.map Brain.id).Nodup :=
    ((List.filter_sublist st).map Brain.id).nodup hnodup
  have hA := archiveLoop_fst_eq_map bid flt st none hnodup hflt_sub hflt_nodup
  set stA := (archiveLoop bid flt (st, none)).1 with hstA
  set g : Brain → Brain := fun x =>
      if x ∈ flt ∧ eligibleOther bid x = true then
        { x with status := BrainStatus.archived } else x with hg
  have hAmap : stA = st.map g := hA
  have hgpos : ∀ x ∈ flt, g x = { x with status := BrainStatus.archived } := by
    intro x hx
    show (if x ∈ flt ∧ eligibleOther bid x = true then
        ({ x with status := BrainStatus.archived } : Brain) else x) = _
    rw [if_pos ⟨hx, helig x hx⟩]
  have hgneg : ∀ x, x ∉ flt → g x = x := by
    intro x hx
    show (if x ∈ flt ∧ eligibleOther bid x = true then
        ({ x with status := BrainStatus.archived } : Brain) else x) = x
    rw [if_neg (fun hc => hx hc.1)]
  have hgid : ∀ x, (g x).id = x.id := by
    intro x
    by_cases hc : x ∈ flt
    · rw [hgpos x hc]
    · rw [hgneg x hc]
  set act : Brain := { b with status := BrainStatus.active } with hact
  have hactid : act.id = b.id := rfl
  have hany : (stA.any fun x => x.id == act.id) = true := by
    rw [List.any_eq_true]
    refine ⟨g b, by rw [hAmap]; exact List.mem_map_of_mem g hbmem, ?_⟩
    rw [hgid b, hactid]
    simp
  have hst'map : st' = st.map fun x => if (g x).id == act.id then act else g x := by
    rw [hst', upsertBrain_of_mem stA act hany, hAmap, List.map_map]
    rfl
  have hbnotflt : b ∉ flt := by
    intro hc
    exact hbnotact ((hfltmem b).mp hc).2.2
  have hFb : (if (g b).id == act.id then act else g b) = act := by
    rw [hgid b, hactid]
    simp
  have hFother : ∀ x, x.id ≠ b.id →
      (if (g x).id == act.id then act else g x) = g x := by
    intro x hx
    rw [hgid x, hactid, if_neg (by simp [hx])]
  refine ⟨?_, ?_, ?_, ?_, ?_, ?_, ?_⟩
  · rw [hst'map]
    exact List.mem_map.mpr ⟨b, hbmem, hFb⟩
  · intro y hy hyact hyv
    rw [hst'map] at hy
    obtain ⟨x, hxst, hxy⟩ := List.mem_map.mp hy
    replace hxy : (if (g x).id == act.id then act else g x) = y := hxy
    by_cases hxb : x.id = b.id
    · have : x = b := id_inj_of_nodup hnodup hxst hbmem hxb
      subst this
      rw [hFb] at hxy
      exact hxy.symm
    · rw [hFother x hxb] at hxy
      by_cases hxflt : x ∈ flt
      · rw [hgpos x hxflt] at hxy
        rw [← hxy] at hyact
        simp at hyact
      · rw [hgneg x hxflt] at hxy
        subst hxy
        exact absurd ((hfltmem x).mpr ⟨hxst, hyv, hyact⟩) hxflt
  · intro x hxst hxv hxa
    have hxflt : x ∈ flt := (hfltmem x).mpr ⟨hxst, hxv, hxa⟩
    have hxb : x.id ≠ b.id := by
      intro hc
      have : x = b := id_inj_of_nodup hnodup hxst hbmem hc
      rw [this] at hxa
      exact hbnotact hxa
    rw [hst'map]
    refine List.mem_map.mpr ⟨x, hxst, ?_⟩
    show (if (g x).id == act.id then act else g x) = _
    rw [hFother x hxb, hgpos x hxflt]
  · intro hno
    have hfltnil : flt = [] := by
      rw [hflt, List.filter_eq_nil_iff]
      intro x hxst
      simp only [Bool.and_eq_true, decide_eq_true_eq, not_and]
      intro hxv
      exact fun hxa => hno x hxst hxv hxa
    rw [hr]
    simp only
    rw [archiveLoop_snd, hfltnil]
    rfl
  · rintro ⟨x, hxst, hxv, hxa⟩
    have hxflt : x ∈ flt := (hfltmem x).mpr ⟨hxst, hxv, hxa⟩
    have hfe : flt.filter (eligibleOther bid) = flt :=
      List.filter_eq_self.mpr helig
    rw [hr]
    simp only
    rw [archiveLoop_snd, hfe]
    rcases foldl_some_id flt none with ⟨hnil, _⟩ | ⟨a, ha, heq⟩
    · rw [hnil] at hxflt
      exact absurd hxflt (List.not_mem_nil x)
    · obtain ⟨hast, hav, haa⟩ := (hfltmem a).mp ha
      exact ⟨a, hast, hav, haa, heq⟩
  · intro y hy hyv
    rw [hst'map] at hy
    obtain ⟨x, hxst, hxy⟩ := List.mem_map.mp hy
    replace hxy : (if (g x).id == act.id then act else g x) = y := hxy
    by_cases hxb : x.id = b.id
    · have : x = b := id_inj_of_nodup hnodup hxst hbmem hxb
      subst this
      rw [hFb] at hxy
      rw [← hxy] at hyv
      exact absurd rfl hyv
    · rw [hFother x hxb] at hxy
      by_cases hxflt : x ∈ flt
      · rw [hgpos x hxflt] at hxy
        have hxv : x.vertical = b.vertical := ((hfltmem x).mp hxflt).2.1
        rw [← hxy] at hyv
        exact absurd hxv hyv
      · rw [hgneg x hxflt] at hxy
        rw [← hxy]
        exact hxst
  · intro x hxst hxv
    have hxb : x.id ≠ b.id := by
      intro hc
      have : x = b := id_inj_of_nodup hnodup hxst hbmem hc
      rw [this] at hxv
      exact hxv rfl
    have hxflt : x ∉ flt := fun hc => hxv ((hfltmem x).mp hc).2.1
    rw [hst'map]
    refine List.mem_map.mpr ⟨x, hxst, ?_⟩
    show (if (g x).id == act.id then act else g x) = _
    rw [hFother x hxb, hgneg x hxflt]

/-- Witness for C2 at a concrete input: activating the draft brain of a
vertical that already has one active brain archives the latter. -/
theorem update_brain_status_activation_witness :
    match update_brain_status
        [Brain.mk "brain_v_1" "v" BrainStatus.active, Brain.mk "brain_v_2" "v" BrainStatus.draft]
        "brain_v_2" "active" with
    | Except.ok (r, st') =>
        Brain.mk "brain_v_1" "v" BrainStatus.archived ∈ st'
          ∧ r.deactivated_brain_id = some "brain_v_1"
    | Except.error _ => False := by
  have h : update_brain_status
      [Brain.mk "brain_v_1" "v" BrainStatus.active, Brain.mk "brain_v_2" "v" BrainStatus.draft]
      "brain_v_2" "active" =
      Except.ok
        ({ brain_id := "brain_v_2", previous_status := BrainStatus.draft,
           new_status := BrainStatus.active, deactivated_brain_id := some "brain_v_1" },
         [Brain.mk "brain_v_1" "v" BrainStatus.archived,
          Brain.mk "brain_v_2" "v" BrainStatus.active]) := by rfl
  have hc := update_brain_status_activation
    [Brain.mk "brain_v_1" "v" BrainStatus.active, Brain.mk "brain_v_2" "v" BrainStatus.draft]
    "brain_v_2" (Brain.mk "brain_v_2" "v" BrainStatus.draft) _ _
    (by decide) (by decide) (by rfl) (by decide) h
  rw [h]
  exact ⟨hc.2.2.1 (Brain.mk "brain_v_1" "v" BrainStatus.active) (by decide) rfl rfl, rfl⟩

/-- Counterexample for C2 as frozen: the auto-archival scan is capped at
`limit=10`, so activating a brain in a (pathological) state with eleven other
active brains of the same vertical archives only ten of them — the call
succeeds, yet `brain_v_11` is still active next to the newly activated
`brain_v_100`, violating both "every other active brain is archived" and the
at-most-one-active-per-vertical invariant. -/
theorem update_brain_status_activation_cex :
    match update_brain_status
        [Brain.mk "brain_v_1" "v" BrainStatus.active, Brain.mk "brain_v_2" "v" BrainStatus.active,
         Brain.mk "brain_v_3" "v" BrainStatus.active, Brain.mk "brain_v_4" "v" BrainStatus.active,
         Brain.mk "brain_v_5" "v" BrainStatus.active, Brain.mk "brain_v_6" "v" BrainStatus.active,
         Brain.mk "brain_v_7" "v" BrainStatus.active, Brain.mk "brain_v_8" "v" BrainStatus.active,
         Brain.mk "brain_v_9" "v" BrainStatus.active, Brain.mk "brain_v_10" "v" BrainStatus.active,
         Brain.mk "brain_v_11" "v" BrainStatus.active,
         Brain.mk "brain_v_100" "v" BrainStatus.draft]
        "brain_v_100" "active" with
    | Except.ok (_, st') =>
        Brain.mk "brain_v_11" "v" BrainStatus.active ∈ st'
          ∧ Brain.mk "brain_v_100" "v" BrainStatus.active ∈ st'
    | Except.error _ => False := by
  have h : update_brain_status
      [Brain.mk "brain_v_1" "v" BrainStatus.active, Brain.mk "brain_v_2" "v" BrainStatus.active,
       Brain.mk "brain_v_3" "v" BrainStatus.active, Brain.mk "brain_v_4" "v" BrainStatus.active,
       Brain.mk "brain_v_5" "v" BrainStatus.active, Brain.mk "brain_v_6" "v" BrainStatus.active,
       Brain.mk "brain_v_7" "v" BrainStatus.active, Brain.mk "brain_v_8" "v" BrainStatus.active,
       Brain.mk "brain_v_9" "v" BrainStatus.active, Brain.mk "brain_v_10" "v" BrainStatus.active,
       Brain.mk "brain_v_11" "v" BrainStatus.active,
       Brain.mk "brain_v_100" "v" BrainStatus.draft]
      "brain_v_100" "active" =
      Except.ok
        ({ brain_id := "brain_v_100", previous_status := BrainStatus.draft,
           new_status := BrainStatus.active, deactivated_brain_id := some "brain_v_10" },
         [Brain.mk "brain_v_1" "v" BrainStatus.archived, Brain.mk "brain_v_2" "v" BrainStatus.archived,
          Brain.mk "brain_v_3" "v" BrainStatus.archived, Brain.mk "brain_v_4" "v" BrainStatus.archived,
          Brain.mk "brain_v_5" "v" BrainStatus.archived, Brain.mk "brain_v_6" "v" BrainStatus.archived,
          Brain.mk "brain_v_7" "v" BrainStatus.archived, Brain.mk "brain_v_8" "v" BrainStatus.archived,
          Brain.mk "brain_v_9" "v" BrainStatus.archived, Brain.mk "brain_v_10" "v" BrainStatus.archived,
          Brain.mk "brain_v_11" "v" BrainStatus.active,
          Brain.mk "brain_v_100" "v" BrainStatus.active]) := by rfl
  rw [h]
  exact ⟨by decide, by decide⟩

/-! ## Helper lemmas for the seeding model -/

lemma validateSeedItems_length (embed_field key_field : String) :
    ∀ (n : ℕ) (items : List SeedItem),
    (validateSeedItems embed_field key_field n items).1.length
      + (validateSeedItems embed_field key_field n items).2.length = items.length := by
  intro n items
  induction items generalizing n with
  | nil => simp [validateSeedItems]
  | cons item rest ih =>
    simp only [validateSeedItems, List.length_cons]
    by_cases h1 : pyTruthy (item.get embed_field)
    · by_cases h2 : pyTruthy (item.get key_field)
      · simp only [h1, h2, Bool.not_true, Bool.false_eq_true, if_false, List.length_cons]
        have := ih (n + 1)
        omega
      · simp only [h1, eq_false_of_ne_true h2, Bool.not_true, Bool.not_false,
          Bool.false_eq_true, if_false, if_true, List.length_cons]
        have := ih (n + 1)
        omega
    · simp only [eq_false_of_ne_true h1, Bool.not_false, if_true, List.length_cons]
      have := ih (n + 1)
      omega

lemma validateSeedItems_error_indices (embed_field key_field : String) :
    ∀ (n : ℕ) (items : List SeedItem),
    (validateSeedItems embed_field key_field n items).1.map (fun e => e.index)
      = badIndicesAux embed_field key_field n items := by
  intro n items
  induction items generalizing n with
  | nil => simp [validateSeedItems, badIndicesAux]
  | cons item rest ih =>
    simp only [validateSeedItems, badIndicesAux, itemValid]
    by_cases h1 : pyTruthy (item.get embed_field)
    · by_cases h2 : pyTruthy (item.get key_field)
      · simp only [h1, h2, Bool.not_true, Bool.false_eq_true, if_false, Bool.and_self, if_true]
        exact ih (n + 1)
      · simp only [h1, eq_false_of_ne_true h2, Bool.not_true, Bool.not_false,
          Bool.false_eq_true, if_false, if_true, Bool.and_false, List.map_cons]
        rw [ih (n + 1)]
    · simp only [eq_false_of_ne_true h1, Bool.not_false, if_true, Bool.false_and,
        Bool.false_eq_true, if_false, List.map_cons]
      rw [ih (n + 1)]

lemma validateSeedItems_valid_items (embed_field key_field : String) :
    ∀ (n : ℕ) (items : List SeedItem),
    (validateSeedItems embed_field key_field n items).2.map (fun v => v.2.1)
      = items.filter fun it => itemValid it embed_field key_field := by
  intro n items
  induction items generalizing n with
  | nil => simp [validateSeedItems]
  | cons item rest ih =>
    simp only [validateSeedItems]
    by_cases h1 : pyTruthy (item.get embed_field)
    · by_cases h2 : pyTruthy (item.get key_field)
      · have hval : itemValid item embed_field key_field = true := by
          simp [itemValid, h1, h2]
        simp only [h1, h2, Bool.not_true, Bool.false_eq_true, if_false, List.map_cons,
          List.filter_cons, hval, if_true]
        rw [ih (n + 1)]
      · have hval : itemValid item embed_field key_field = false := by
          simp [itemValid, eq_false_of_ne_true h2]
        simp only [h1, eq_false_of_ne_true h2, Bool.not_true, Bool.not_false,
          Bool.false_eq_true, if_false, if_true, List.filter_cons, hval]
        exact ih (n + 1)
    · have hval : itemValid item embed_field key_field = false := by
        simp [itemValid, eq_false_of_ne_true h1]
      simp only [eq_false_of_ne_true h1, Bool.not_false, if_true,
        List.filter_cons, hval, Bool.false_eq_true, if_false]
      exact ih (n + 1)

lemma validateSeedItems_error_of_invalid (embed_field key_field : String) :
    ∀ (items : List SeedItem) (n i : ℕ) (item : SeedItem),
    items[i]? = some item → itemValid item embed_field key_field = false →
    ∃ e ∈ (validateSeedItems embed_field key_field n items).1,
      e.index = n + i ∧ e.name = itemName item (n + i)
        ∧ (e.error = "Missing required field: " ++ embed_field
           ∨ e.error = "Missing required field: " ++ key_field) := by
  intro items
  induction items with
  | nil => intro n i item hget; simp at hget
  | cons it0 rest ih =>
    intro n i item hget hinv
    cases i with
    | zero =>
      rw [List.getElem?_cons_zero] at hget
      obtain rfl : it0 = item := Option.some.inj hget
      simp only [validateSeedItems]
      by_cases h1 : pyTruthy (it0.get embed_field)
      · by_cases h2 : pyTruthy (it0.get key_field)
        · exfalso
          rw [show itemValid it0 embed_field key_field = true by simp [itemValid, h1, h2]] at hinv
          exact absurd hinv (by decide)
        · refine ⟨SeedingError.mk n (itemName it0 n)
              ("Missing required field: " ++ key_field), ?_, ?_, ?_, Or.inr rfl⟩
          · simp [h1, eq_false_of_ne_true h2]
          · rfl
          · rfl
      · refine ⟨SeedingError.mk n (itemName it0 n)
            ("Missing required field: " ++ embed_field), ?_, ?_, ?_, Or.inl rfl⟩
        · simp [eq_false_of_ne_true h1]
        · rfl
        · rfl
    | succ j =>
      rw [List.getElem?_cons_succ] at hget
      obtain ⟨e, hmem, hidx, hname, herr⟩ := ih (n + 1) j item hget hinv
      refine ⟨e, ?_, ?_, ?_, herr⟩
      · simp only [validateSeedItems]
        by_cases h1 : pyTruthy (it0.get embed_field)
        · by_cases h2 : pyTruthy (it0.get key_field)
          · simpa [h1, h2] using hmem
          · simp only [h1, eq_false_of_ne_true h2, Bool.not_true, Bool.not_false,
              Bool.false_eq_true, if_false, if_true]
            exact List.mem_cons_of_mem _ hmem
        · simp only [eq_false_of_ne_true h1, Bool.not_false, if_true]
          exact List.mem_cons_of_mem _ hmem
      · rw [hidx]; omega
      · rw [hname]
        congr 1
        omega

lemma badIndicesAux_shift (embed_field key_field : String) :
    ∀ (items : List SeedItem) (n : ℕ),
    badIndicesAux embed_field key_field n items
      = (badIndicesAux embed_field key_field 0 items).map fun i => n + i := by
  intro items
  induction items with
  | nil => intro n; simp [badIndicesAux]
  | cons item rest ih =>
    intro n
    by_cases hv : itemValid item embed_field key_field
    · simp only [badIndicesAux, hv, if_true]
      rw [ih (n + 1), ih 1, List.map_map]
      apply List.map_congr_left
      intro i _
      simp only [Function.comp_apply]
      omega
    · simp only [badIndicesAux, hv, Bool.false_eq_true, if_false, List.map_cons]
      rw [ih (n + 1), ih 1, List.map_map]
      refine congrArg₂ _ (by omega) ?_
      apply List.map_congr_left
      intro i _
      simp only [Function.comp_apply]
      omega

lemma mem_badIndices_iff (embed_field key_field : String) :
    ∀ (items : List SeedItem) (i : ℕ),
    i ∈ badIndices items embed_field key_field ↔
      ∃ item, items[i]? = some item ∧ itemValid item embed_field key_field = false := by
  intro items
  induction items with
  | nil => intro i; simp [badIndices, badIndicesAux]
  | cons it0 rest ih =>
    intro i
    unfold badIndices badIndicesAux
    rw [badIndicesAux_shift]
    by_cases hv : itemValid it0 embed_field key_field
    · rw [if_pos hv]
      constructor
      · intro hmem
        obtain ⟨j, hj, hji⟩ := List.mem_map.mp hmem
        obtain ⟨item, hget, hinv⟩ := (ih j).mp hj
        refine ⟨item, ?_, hinv⟩
        have hji' : i = j + 1 := by omega
        rw [hji', List.getElem?_cons_succ]
        exact hget
      · rintro ⟨item, hget, hinv⟩
        cases i with
        | zero =>
          rw [List.getElem?_cons_zero] at hget
          obtain rfl : it0 = item := Option.some.inj hget
          rw [hv] at hinv
          exact absurd hinv (by simp)
        | succ j =>
          rw [List.getElem?_cons_succ] at hget
          exact List.mem_map.mpr ⟨j, (ih j).mpr ⟨item, hget, hinv⟩, by omega⟩
    · rw [if_neg hv]
      constructor
      · intro hmem
        rcases List.mem_cons.mp hmem with h0 | hmem'
        · subst h0
          exact ⟨it0, List.getElem?_cons_zero, eq_false_of_ne_true hv⟩
        · obtain ⟨j, hj, hji⟩ := List.mem_map.mp hmem'
          obtain ⟨item, hget, hinv⟩ := (ih j).mp hj
          refine ⟨item, ?_, hinv⟩
          have hji' : i = j + 1 := by omega
          rw [hji', List.getElem?_cons_succ]
          exact hget
      · rintro ⟨item, hget, hinv⟩
        cases i with
        | zero => exact List.mem_cons_self _ _
        | succ j =>
          rw [List.getElem?_cons_succ] at hget
          exact List.mem_cons_of_mem _
            (List.mem_map.mpr ⟨j, (ih j).mpr ⟨item, hget, hinv⟩, by omega⟩)

/-- Inversion of a successful `_seed_items_to_collection` call: either the
batch was empty (immediate trivial success), or the result is built from the
validation split of the items. -/
lemma seed_items_ok_inv (brains : List Brain) (embed_ok upsert_ok : Bool)
    (brain_id : String) (items : List SeedItem) (collection embed_field key_field : String)
    (res : SeedingResult) (pts : List SeedPoint)
    (h : seed_items_to_collection brains embed_ok upsert_ok brain_id items collection
      embed_field key_field = Except.ok (res, pts)) :
    (items = [] ∧ res.seeded_count = 0 ∧ res.errors = [] ∧ pts = []) ∨
    (items ≠ [] ∧ res.seeded_count = (validateSeedItems embed_field key_field 0 items).2.length
      ∧ res.errors = (validateSeedItems embed_field key_field 0 items).1
      ∧ pts.map (fun p => p.id) = (validateSeedItems embed_field key_field 0 items).2.map
          fun v => generate_point_id brain_id ((v.2.1.get key_field).getD "")) := by
  cases items with
  | nil =>
    left
    simp only [seed_items_to_collection, List.isEmpty_nil, if_true,
      Except.ok.injEq, Prod.mk.injEq] at h
    obtain ⟨hres, hpts⟩ := h
    exact ⟨rfl, by rw [← hres], by rw [← hres], hpts.symm⟩
  | cons it0 rest =>
    right
    refine ⟨by simp, ?_⟩
    simp only [seed_items_to_collection, List.isEmpty_cons, Bool.false_eq_true, if_false] at h
    cases hv : validate_brain_id brain_id
    · rw [hv] at h
      simp at h
    · rw [hv] at h
      simp only [Bool.not_true, Bool.false_eq_true, if_false] at h
      cases hf : findBrain brains brain_id with
      | none =>
        rw [hf] at h
        simp at h
      | some bd =>
        rw [hf] at h
        simp only [] at h
        by_cases harch : bd.status = BrainStatus.archived
        · rw [if_pos harch] at h
          simp at h
        · rw [if_neg harch] at h
          by_cases hvemp : (validateSeedItems embed_field key_field 0 (it0 :: rest)).2.isEmpty
          · rw [if_pos hvemp] at h
            simp only [Except.ok.injEq, Prod.mk.injEq] at h
            obtain ⟨hres, hpts⟩ := h
            have hlen : (validateSeedItems embed_field key_field 0 (it0 :: rest)).2.length = 0 :=
              List.isEmpty_iff_length_eq_zero.mp hvemp
            have hnil2 : (validateSeedItems embed_field key_field 0 (it0 :: rest)).2 = [] :=
              List.length_eq_zero.mp hlen
            refine ⟨by rw [← hres, hlen], by rw [← hres], ?_⟩
            rw [← hpts, hnil2]
            rfl
          · rw [if_neg hvemp] at h
            cases he : embed_ok
            · rw [he] at h
              simp at h
            · rw [he] at h
              simp only [Bool.not_true, Bool.false_eq_true, if_false] at h
              cases hu : upsert_ok
              · rw [hu] at h
                simp at h
              · rw [hu] at h
                simp only [Bool.not_true, Bool.false_eq_true, if_false,
                  Except.ok.injEq, Prod.mk.injEq] at h
                obtain ⟨hres, hpts⟩ := h
                refine ⟨by rw [← hres]; simp, by rw [← hres], ?_⟩
                rw [← hpts, List.map_map]
                rfl

/-! ## Claim C10: empty batches skip all brain validation -/

/-- Claim C10: seeding an empty item list returns seeded_count 0 with an
empty errors list without any brain validation: the same successful result
for every brains state and every brain_id — archived, missing, or even
malformed — and for every backend-oracle outcome. -/
theorem seed_items_empty_batch (brains : List Brain) (embed_ok upsert_ok : Bool)
    (brain_id collection embed_field key_field : String) :
    seed_items_to_collection brains embed_ok upsert_ok brain_id [] collection
        embed_field key_field
      = Except.ok ({ brain_id := brain_id, collection := collection, seeded_count := 0,
                     errors := [], message := "No items to seed" }, []) := rfl

/-! ## Claim C9: seeded_count plus errors accounts for every item -/

/-- Claim C9: whenever `_seed_items_to_collection` returns a result,
seeded_count plus the number of errors equals the number of input items, and
the indices in the errors list are exactly the indices of the items failing
item validation (in order). -/
theorem seed_items_count_invariant (brains : List Brain) (embed_ok upsert_ok : Bool)
    (brain_id : String) (items : List SeedItem) (collection embed_field key_field : String)
    (res : SeedingResult) (pts : List SeedPoint)
    (h : seed_items_to_collection brains embed_ok upsert_ok brain_id items collection
      embed_field key_field = Except.ok (res, pts)) :
    res.seeded_count + res.errors.length = items.length
    ∧ res.errors.map (fun e => e.index) = badIndices items embed_field key_field
    ∧ (∀ i, i ∈ badIndices items embed_field key_field ↔
        ∃ item, items[i]? = some item ∧ itemValid item embed_field key_field = false) := by
  rcases seed_items_ok_inv brains embed_ok upsert_ok brain_id items collection
      embed_field key_field res pts h with ⟨hnil, h0, he, -⟩ | ⟨-, hc, he, -⟩
  · subst hnil
    exact ⟨by rw [h0, he]; rfl, by rw [he]; rfl,
      fun i => mem_badIndices_iff embed_field key_field [] i⟩
  · refine ⟨?_, ?_, fun i => mem_badIndices_iff embed_field key_field items i⟩
    · rw [hc, he]
      have := validateSeedItems_length embed_field key_field 0 items
      omega
    · rw [he, validateSeedItems_error_indices]
      rfl

/-- Witness for C9 at a concrete input: a 3-item batch whose middle item
lacks the embed field gives seeded_count 2, one error, and bad index 1. -/
theorem seed_items_count_invariant_witness :
    (2 : ℕ) + [SeedingError.mk 1 "b" "Missing required field: criteria"].length = 3
    ∧ [SeedingError.mk 1 "b" "Missing required field: criteria"].map (fun e => e.index)
        = badIndices
            [SeedItem.mk [("name", "a"), ("criteria", "ca")], SeedItem.mk [("name", "b")],
             SeedItem.mk [("name", "c"), ("criteria", "cc")]] "criteria" "name" := by
  have h := seed_items_count_invariant [Brain.mk "brain_v_1" "v" BrainStatus.draft] true true
    "brain_v_1"
    [SeedItem.mk [("name", "a"), ("criteria", "ca")], SeedItem.mk [("name", "b")],
     SeedItem.mk [("name", "c"), ("criteria", "cc")]] "icp_rules" "criteria" "name"
    { brain_id := "brain_v_1", collection := "icp_rules", seeded_count := 2,
      errors := [SeedingError.mk 1 "b" "Missing required field: criteria"],
      message := "Seeded 2 items with 1 errors" }
    [SeedPoint.mk (generate_point_id "brain_v_1" "a") (SeedItem.mk [("name", "a"), ("criteria", "ca")]),
     SeedPoint.mk (generate_point_id "brain_v_1" "c") (SeedItem.mk [("name", "c"), ("criteria", "cc")])]
    (by rfl)
  exact ⟨h.1, h.2.1⟩

/-! ## Claim C6: partial success and the archived-brain rejection -/

/-- Claim C6: seeding a non-empty batch against an existing draft or active
brain (with working backends) never raises: it returns a result whose
seeded_count counts exactly the valid items, and every item missing a truthy
embed field or key field is reported in the errors list with its index, its
name, and a missing-field message; seeding a non-empty batch against an
archived brain rejects the whole write. -/
theorem seed_items_partial_failure (brains : List Brain) (brain_id : String)
    (items : List SeedItem) (collection embed_field key_field : String) (b : Brain)
    (hv : validate_brain_id brain_id = true)
    (hfind : findBrain brains brain_id = some b) :
    ((b.status = BrainStatus.draft ∨ b.status = BrainStatus.active) →
      ∃ res pts, seed_items_to_collection brains true true brain_id items collection
          embed_field key_field = Except.ok (res, pts)
        ∧ res.seeded_count = (items.filter fun it => itemValid it embed_field key_field).length
        ∧ (∀ i item, items[i]? = some item → itemValid item embed_field key_field = false →
            ∃ e ∈ res.errors, e.index = i ∧ e.name = itemName item i
              ∧ (e.error = "Missing required field: " ++ embed_field
                 ∨ e.error = "Missing required field: " ++ key_field)))
    ∧ (b.status = BrainStatus.archived → items ≠ [] →
        seed_items_to_collection brains true true brain_id items collection
          embed_field key_field = Except.error ToolErrorKind.notSeedable) := by
  have herrs : ∀ i item, items[i]? = some item →
      itemValid item embed_field key_field = false →
      ∃ e ∈ (validateSeedItems embed_field key_field 0 items).1,
        e.index = i ∧ e.name = itemName item i
          ∧ (e.error = "Missing required field: " ++ embed_field
             ∨ e.error = "Missing required field: " ++ key_field) := by
    intro i item hget hinv
    obtain ⟨e, hmem, hidx, hname, herr⟩ :=
      validateSeedItems_error_of_invalid embed_field key_field items 0 i item hget hinv
    rw [Nat.zero_add] at hidx hname
    exact ⟨e, hmem, hidx, hname, herr⟩
  have hvcount : (validateSeedItems embed_field key_field 0 items).2.length
      = (items.filter fun it => itemValid it embed_field key_field).length := by
    rw [← validateSeedItems_valid_items embed_field key_field 0 items, List.length_map]
  constructor
  · intro hstat
    have hnotarch : ¬ b.status = BrainStatus.archived := by
      rcases hstat with h | h <;> rw [h] <;> intro hc <;> exact BrainStatus.noConfusion hc
    rcases hres : seed_items_to_collection brains true true brain_id items collection
        embed_field key_field with err | val
    · exfalso
      cases items with
      | nil => simp [seed_items_to_collection] at hres
      | cons it0 rest =>
        simp only [seed_items_to_collection, List.isEmpty_cons, Bool.false_eq_true, if_false,
          hv, Bool.not_true, hfind] at hres
        rw [if_neg hnotarch] at hres
        by_cases hvemp : (validateSeedItems embed_field key_field 0 (it0 :: rest)).2.isEmpty
        · rw [if_pos hvemp] at hres
          simp at hres
        · rw [if_neg hvemp] at hres
          simp at hres
    · obtain ⟨res, pts⟩ := val
      refine ⟨res, pts, rfl, ?_, ?_⟩
      · rcases seed_items_ok_inv brains true true brain_id items collection
            embed_field key_field res pts hres with ⟨hnil, h0, -, -⟩ | ⟨-, hc, -, -⟩
        · subst hnil
          rw [h0]
          rfl
        · rw [hc, hvcount]
      · rcases seed_items_ok_inv brains true true brain_id items collection
            embed_field key_field res pts hres with ⟨hnil, -, he, -⟩ | ⟨-, -, he, -⟩
        · subst hnil
          intro i item hget
          simp at hget
        · rw [he]
          exact herrs
  · intro harch hne
    cases items with
    | nil => exact absurd rfl hne
    | cons it0 rest =>
      simp only [seed_items_to_collection, List.isEmpty_cons, Bool.false_eq_true, if_false,
        hv, Bool.not_true, hfind]
      rw [if_pos harch]

/-- Witness for C6 at a concrete input: the 3-item batch of the spec with
item 1 missing the embed field seeds 2 items and reports the error at
index 1 with the item's name. -/
theorem seed_items_partial_failure_witness :
    ∃ res pts, seed_items_to_collection [Brain.mk "brain_v_1" "v" BrainStatus.draft] true true
        "brain_v_1"
        [SeedItem.mk [("name", "a"), ("criteria", "ca")], SeedItem.mk [("name", "b")],
         SeedItem.mk [("name", "c"), ("criteria", "cc")]] "icp_rules" "criteria" "name"
      = Except.ok (res, pts)
      ∧ res.seeded_count = 2
      ∧ ∃ e ∈ res.errors, e.index = 1 ∧ e.name = "b" := by
  obtain ⟨res, pts, heq, hcount, herr⟩ :=
    (seed_items_partial_failure [Brain.mk "brain_v_1" "v" BrainStatus.draft] "brain_v_1"
      [SeedItem.mk [("name", "a"), ("criteria", "ca")], SeedItem.mk [("name", "b")],
       SeedItem.mk [("name", "c"), ("criteria", "cc")]] "icp_rules" "criteria" "name"
      (Brain.mk "brain_v_1" "v" BrainStatus.draft) (by decide) rfl).1 (Or.inl rfl)
  obtain ⟨e, hmem, hidx, hname, -⟩ := herr 1 (SeedItem.mk [("name", "b")]) rfl (by decide)
  refine ⟨res, pts, heq, by rw [hcount]; rfl, e, hmem, hidx, ?_⟩
  rw [hname]
  rfl

/-! ## Claim C7: delete_brain preconditions leave the store untouched -/

/-- Claim C7 (amended): delete_brain with confirm ≠ true is rejected with
nothing deleted; likewise a malformed id, an unknown brain, or an active
brain leaves the store untouched.  These precondition checks all run before
any deletion; a backend failure while removing the brain record itself,
however, aborts the call only after the content rows were already deleted
(see the counterexample for the frozen claim). -/
theorem delete_brain_preconditions (st : KBState) (record_delete_ok : Bool)
    (brain_id : String) :
    (delete_brain st record_delete_ok brain_id false
      = (Except.error ToolErrorKind.confirmationRequired, st))
    ∧ (validate_brain_id brain_id = false →
        delete_brain st record_delete_ok brain_id true
          = (Except.error ToolErrorKind.invalidBrainIdFormat, st))
    ∧ (validate_brain_id brain_id = true → findBrain st.brains brain_id = none →
        delete_brain st record_delete_ok brain_id true
          = (Except.error ToolErrorKind.notFound, st))
    ∧ (∀ b, validate_brain_id brain_id = true → findBrain st.brains brain_id = some b →
        b.status = BrainStatus.active →
        delete_brain st record_delete_ok brain_id true
          = (Except.error ToolErrorKind.cannotDeleteActive, st)) := by
  refine ⟨rfl, ?_, ?_, ?_⟩
  · intro hv
    simp [delete_brain, hv]
  · intro hv hf
    simp [delete_brain, hv, hf]
  · intro b hv hf hact
    simp [delete_brain, hv, hf, hact]

/-- Witness for C7 at concrete inputs: a missing confirm flag and an active
brain are both rejected with the store unchanged. -/
theorem delete_brain_preconditions_witness :
    (delete_brain
        { brains := [Brain.mk "brain_v_1" "v" BrainStatus.active],
          content := [ContentPoint.mk "icp_rules" "p1" "brain_v_1"] } true "brain_v_1" false
      = (Except.error ToolErrorKind.confirmationRequired,
         { brains := [Brain.mk "brain_v_1" "v" BrainStatus.active],
           content := [ContentPoint.mk "icp_rules" "p1" "brain_v_1"] }))
    ∧ (delete_brain
        { brains := [Brain.mk "brain_v_1" "v" BrainStatus.active],
          content := [ContentPoint.mk "icp_rules" "p1" "brain_v_1"] } true "brain_v_1" true
      = (Except.error ToolErrorKind.cannotDeleteActive,
         { brains := [Brain.mk "brain_v_1" "v" BrainStatus.active],
           content := [ContentPoint.mk "icp_rules" "p1" "brain_v_1"] })) := by
  refine ⟨(delete_brain_preconditions _ true "brain_v_1").1, ?_⟩
  exact (delete_brain_preconditions
    { brains := [Brain.mk "brain_v_1" "v" BrainStatus.active],
      content := [ContentPoint.mk "icp_rules" "p1" "brain_v_1"] } true "brain_v_1").2.2.2
    (Brain.mk "brain_v_1" "v" BrainStatus.active) (by decide) rfl rfl

/-- Counterexample for C7 as frozen: the cascade deletes the content rows
before the brain record; when the final brain-record removal hits a backend
failure the call fails ("Failed to delete brain record") yet the brain's
content row is already gone — a failing delete_brain call with a partial
side effect. -/
theorem delete_brain_partial_effect_cex :
    delete_brain
        { brains := [Brain.mk "brain_v_1" "v" BrainStatus.draft],
          content := [ContentPoint.mk "icp_rules" "p1" "brain_v_1"] }
        false "brain_v_1" true
      = (Except.error ToolErrorKind.deleteBrainRecordFailed,
         { brains := [Brain.mk "brain_v_1" "v" BrainStatus.draft], content := [] }) := by
  rfl

/-! ## Claim C8: deterministic point ids vs. the random insight id -/

/-- Claim C8 (amended): every point id produced by batch seeding is
`generate_point_id(brain_id, key_value)` — a deterministic hash of the domain
keys, so re-seeding the same key addresses the same stored record — but
insight creation is the exception: the id stored by `add_insight` is the
freshly drawn random UUID, independent of brain_id, content, and any key. -/
theorem point_ids_deterministic (brains : List Brain) (embed_ok upsert_ok : Bool)
    (brain_id : String) (items : List SeedItem) (collection embed_field key_field : String)
    (res : SeedingResult) (pts : List SeedPoint)
    (h : seed_items_to_collection brains embed_ok upsert_ok brain_id items collection
      embed_field key_field = Except.ok (res, pts)) :
    pts.map (fun p => p.id)
      = (items.filter fun it => itemValid it embed_field key_field).map
          (fun it => generate_point_id brain_id ((it.get key_field).getD ""))
    ∧ (∀ (store : InsightStore) (fresh_uuid content : String) (category : InsightCategory)
        (importance : Importance) (source : Option SourceMetadata) (i : String)
        (conf : ℚ) (nv : Bool),
        add_insight store fresh_uuid brain_id content category importance source
          = Except.ok (AddInsightOutcome.created i conf nv) → i = fresh_uuid) := by
  constructor
  · rcases seed_items_ok_inv brains embed_ok upsert_ok brain_id items collection
        embed_field key_field res pts h with ⟨hnil, -, -, hpts⟩ | ⟨-, -, -, hpts⟩
    · subst hnil
      rw [hpts]
      rfl
    · rw [hpts, ← validateSeedItems_valid_items embed_field key_field 0 items, List.map_map]
      rfl
  · intro store fresh_uuid content category importance source i conf nv hai
    unfold add_insight at hai
    repeat' split at hai
    all_goals try simp_all
    all_goals repeat' split at hai
    all_goals simp_all

/-- Witness for C8 at a concrete input: a valid single-item batch is stored
under the deterministic id `generate_point_id brain_id key`. -/
theorem point_ids_deterministic_witness :
    ([SeedPoint.mk (generate_point_id "brain_v_1" "a")
        (SeedItem.mk [("name", "a"), ("criteria", "ca")])].map fun p => p.id)
      = ([SeedItem.mk [("name", "a"), ("criteria", "ca")]].filter fun it =>
          itemValid it "criteria" "name").map
          fun it => generate_point_id "brain_v_1" ((it.get "name").getD "") :=
  (point_ids_deterministic [Brain.mk "brain_v_1" "v" BrainStatus.draft] true true "brain_v_1"
    [SeedItem.mk [("name", "a"), ("criteria", "ca")]] "icp_rules" "criteria" "name"
    { brain_id := "brain_v_1", collection := "icp_rules", seeded_count := 1, errors := [],
      message := "Successfully seeded 1 items" }
    [SeedPoint.mk (generate_point_id "brain_v_1" "a")
      (SeedItem.mk [("name", "a"), ("criteria", "ca")])]
    (by rfl)).1

lemma gate_eval_concrete :
    run_quality_gate (InsightStore.mk [] fun _ _ => 0) "brain_v_1" "some content"
        InsightCategory.pain_point Importance.low
        { type := "call_transcript", id := "c1", company_name := some "Acme",
          extracted_quote := some "quote" } =
      ({ passed := true, confidence_score := 0.9, is_duplicate := false,
         requires_validation := false }, true) := by
  have hsrv : should_require_validation Importance.low InsightCategory.pain_point (0.9 : ℚ)
      = false := by
    unfold should_require_validation VALIDATION_REQUIRED_CATEGORIES
    rw [if_neg (by decide), if_neg (by decide), if_neg (by norm_num)]
  have hcd : check_duplicate (InsightStore.mk [] fun _ _ => 0) "brain_v_1" "some content"
      = (false, none, none) := rfl
  simp only [run_quality_gate, conf_call_full, hcd]
  rw [if_neg (show ¬((0.9 : ℚ) < MIN_CONFIDENCE_THRESHOLD) by
    norm_num [MIN_CONFIDENCE_THRESHOLD])]
  simp [hsrv]

lemma add_insight_eval (u : String) :
    add_insight (InsightStore.mk [] fun _ _ => 0) u "brain_v_1" "some content"
        InsightCategory.pain_point Importance.low
        (some { type := "call_transcript", id := "c1", company_name := some "Acme",
                extracted_quote := some "quote" })
      = Except.ok (AddInsightOutcome.created u 0.9 false) := by
  simp only [add_insight]
  rw [if_neg (by decide), if_neg (by decide), if_neg (by decide)]
  rw [if_neg (by decide), if_neg (by decide)]
  simp [gate_eval_concrete]

/-- Counterexample for C8 as frozen: insight creation does not derive its
point id from the domain keys — two `add_insight` runs with identical
brain_id, content, category, importance and source store their points under
whatever fresh UUID the random generator produced, so equal inputs yield
different point ids. -/
theorem insight_point_id_random_cex :
    add_insight (InsightStore.mk [] fun _ _ => 0) "11111111-1111-1111-1111-111111111111"
        "brain_v_1" "some content" InsightCategory.pain_point Importance.low
        (some { type := "call_transcript", id := "c1", company_name := some "Acme",
                extracted_quote := some "quote" })
      = Except.ok (AddInsightOutcome.created "11111111-1111-1111-1111-111111111111" 0.9 false)
    ∧ add_insight (InsightStore.mk [] fun _ _ => 0) "22222222-2222-2222-2222-222222222222"
        "brain_v_1" "some content" InsightCategory.pain_point Importance.low
        (some { type := "call_transcript", id := "c1", company_name := some "Acme",
                extracted_quote := some "quote" })
      = Except.ok (AddInsightOutcome.created "22222222-2222-2222-2222-222222222222" 0.9 false)
    ∧ ("11111111-1111-1111-1111-111111111111" : String)
        ≠ "22222222-2222-2222-2222-222222222222" :=
  ⟨add_insight_eval "11111111-1111-1111-1111-111111111111",
   add_insight_eval "22222222-2222-2222-2222-222222222222", by decide⟩
